import Mathlib

/-!
Verification development for the undermoon cluster-manager core.

The Rust sources embedded here:
  * `src/common/cluster.rs`      -> namespace `cluster`
  * `src/migration/manager.rs`   -> namespace `manager`
  * `src/replication/replicator.rs` -> namespace `replicator`
  * `src/broker/service.rs`      -> namespace `broker`

Types that `manager.rs`, `replicator.rs` and `broker/service.rs` use but whose
defining files are not part of the source set (the current `common/cluster.rs`
with `MigrationMeta`, `migration/task.rs`, `migration/scan_task.rs`,
`common/db.rs`, `broker/store.rs`, `broker/epoch.rs`) are modelled from the
specification; each such definition carries a doc comment saying so.

Machine integers (`u64`, `usize`) are modelled as `Nat`: no embedded operation
here can overflow on the values the program produces (epochs and list lengths).
Rust `HashMap`s are modelled as association lists with key-replacing insertion;
iteration order of a `HashMap` is arbitrary in Rust and none of the proved
statements depends on it.
-/

/-! ### Decimal numerals

Model of Rust `u64::to_string` / `str::parse::<u64>` (and the `usize`
variants): decimal digit printing and parsing, defined over `List Char`.
-/

/-- The character for a decimal digit, as printed by Rust's `to_string`. -/
def decDigitChar (d : Nat) : Char :=
  match d with
  | 0 => '0' | 1 => '1' | 2 => '2' | 3 => '3' | 4 => '4'
  | 5 => '5' | 6 => '6' | 7 => '7' | 8 => '8' | _ => '9'

/-- Decimal digits of `n`, most significant first (`0` prints as `"0"`),
as produced by Rust `u64::to_string`. -/
def decDigits (n : Nat) : List Char :=
  if _h : n < 10 then [decDigitChar n]
  else decDigits (n / 10) ++ [decDigitChar (n % 10)]
decreasing_by exact Nat.div_lt_self (by omega) (by omega)

/-- Model of Rust `u64::to_string` / `usize::to_string`. -/
def natToString (n : Nat) : String :=
  ⟨decDigits n⟩

/-- Numeric value of a list of decimal digit characters. -/
def decValue (cs : List Char) : Nat :=
  cs.foldl (fun acc c => acc * 10 + (c.toNat - '0'.toNat)) 0

/-- Model of Rust `str::parse::<u64>` / `str::parse::<usize>` on its
decimal-digit domain: succeeds exactly on non-empty all-digit strings. -/
def parseNat (s : String) : Option Nat :=
  if s.data ≠ [] ∧ s.data.all (fun c => c.isDigit) then some (decValue s.data)
  else none

/-! ### `src/common/cluster.rs` (the file as present in the source set)

This version of the file has a two-case `SlotRangeTag` whose `Migrating`
variant carries only a destination-address string.
-/

namespace cluster

/-- `SlotRangeTag` exactly as declared in `src/common/cluster.rs`:
`Migrating(String)` or `None`. -/
inductive SlotRangeTag where
  | Migrating (dst : String)
  | None
deriving DecidableEq

/-- `impl Serialize for SlotRangeTag`: the serialized form of the tag. -/
def SlotRangeTag.serialize : SlotRangeTag → String
  | .Migrating dst => "migrating " ++ dst
  | .None => ""

/-- Splitting a character list at every space, keeping empty segments
(the semantics of Rust `str::split(' ')`). -/
def splitOnSpace : List Char → List (List Char)
  | [] => [[]]
  | c :: rest =>
    if c = ' ' then [] :: splitOnSpace rest
    else
      match splitOnSpace rest with
      | [] => [[c]]
      | seg :: segs => (c :: seg) :: segs

/-- Rust `str::split_terminator(' ')`: like `split`, with a trailing empty
substring (caused by a trailing separator, or an empty input) suppressed. -/
def splitTerminator (s : String) : List String :=
  let parts := (splitOnSpace s.data).map (fun cs => String.mk cs)
  if parts.getLast? = some "" then parts.dropLast else parts

/-- `impl Deserialize for SlotRangeTag` from `src/common/cluster.rs`:
no token yields `None`; a first token other than `"migrating"` is an
`Invalid flag` error; `"migrating"` must be followed by a destination. -/
def SlotRangeTag.deserialize (s : String) : Except String SlotRangeTag :=
  match splitTerminator s with
  | [] => .ok .None
  | flag :: rest =>
    if flag ≠ "migrating" then .error "Invalid flag"
    else
      match rest with
      | [] => .error "Missing destination address"
      | dst :: _ => .ok (.Migrating dst)

/-- `SlotRange` as declared in `src/common/cluster.rs`. -/
structure SlotRange where
  start : Nat
  stop : Nat
  tag : SlotRangeTag
deriving DecidableEq

end cluster

/-! ### Association-list maps (model of Rust `HashMap`) -/

/-- `HashMap::get`. -/
def mapGet {α β : Type} [DecidableEq α] : List (α × β) → α → Option β
  | [], _ => none
  | (k, v) :: rest, k' => if k' = k then some v else mapGet rest k'

/-- `HashMap::insert`: replaces the value at an existing key, otherwise
adds the binding. -/
def mapInsert {α β : Type} [DecidableEq α] : List (α × β) → α → β → List (α × β)
  | [], k, v => [(k, v)]
  | (k', v') :: rest, k, v =>
    if k = k' then (k, v) :: rest else (k', v') :: mapInsert rest k v

/-- `HashMap::contains_key`. -/
def mapContainsKey {α β : Type} [DecidableEq α] (m : List (α × β)) (k : α) : Bool :=
  (mapGet m k).isSome

/-! ### Migration data model used by `src/migration/manager.rs`

`manager.rs` imports `ClusterName`, `MigrationTaskMeta`, `RangeList` and
`SlotRangeTag` from the current `common/cluster.rs`, which is not in the
source set (the `common/cluster.rs` that is present is an older two-case
version embedded above).  These types are modelled from the spec.
-/

namespace proto

/-- Cluster names are strings. -/
abbrev ClusterName := String

/-- Modelled from the spec: `MigrationMeta` is the identifying tuple
`{epoch, src_proxy, src_node, dst_proxy, dst_node}` of a single slot-range
handoff; `epoch` is the global epoch at which the migration was planned. -/
structure MigrationMeta where
  epoch : Nat
  src_proxy_address : String
  src_node_address : String
  dst_proxy_address : String
  dst_node_address : String
deriving DecidableEq

/-- Modelled from the spec: a slot range's tag is
`None`, `Migrating(MigrationMeta)` or `Importing(MigrationMeta)`. -/
inductive SlotRangeTag where
  | Migrating (meta : MigrationMeta)
  | Importing (meta : MigrationMeta)
  | none
deriving DecidableEq

/-- Modelled from the spec: a `RangeList` is a list of closed slot
intervals `(start, end)`. -/
abbrev RangeList := List (Nat × Nat)

/-- Modelled from the spec: a `SlotRange` of the current `common/cluster.rs`
is a `RangeList` together with a tag. -/
structure SlotRange where
  range_list : RangeList
  tag : SlotRangeTag
deriving DecidableEq

/-- `SlotRange::to_range_list`: the ranges without the tag. -/
def SlotRange.to_range_list (sr : SlotRange) : RangeList :=
  sr.range_list

/-- Modelled from the spec: `MigrationTaskMeta` is the cluster name plus the
tagged slot range of one migration task (its tag carries the planning
`epoch`); it is the task's identity in the maps below. -/
structure MigrationTaskMeta where
  cluster_name : ClusterName
  slot_range : SlotRange
deriving DecidableEq

/-- Whether a slot is inside one of the intervals of a range list. -/
def rangeListContainsSlot (rl : RangeList) (slot : Nat) : Bool :=
  rl.any (fun r => r.1 ≤ slot && slot ≤ r.2)

/-- Modelled from the spec: the per-task migration state machine
`PreCheck → PreBlocking → Blocking → Committing → SwitchCommitted`
(the failure state `Aborted` plays no role in the claims settled here). -/
inductive MigrationState where
  | PreCheck
  | PreBlocking
  | Blocking
  | Committing
  | SwitchCommitted
deriving DecidableEq

/-- Modelled from the spec: a migration error of the task layer; the
manager maps `NotReady` to `SwitchError::NotReady` and wraps the rest. -/
inductive MigrationError where
  | NotReady
  | Canceled
deriving DecidableEq

/-- Modelled from the spec: the argument of the switch protocol, a protocol
version and the `MigrationTaskMeta` that must match a known task. -/
structure SwitchArg where
  version : String
  meta : MigrationTaskMeta
deriving DecidableEq

/-- Modelled from the spec: the sub-command of a switch request
(the temporary `TMPSWITCH` pre-switch and the final switch). -/
inductive MgrSubCmd where
  | PreSwitch
  | FinalSwitch
deriving DecidableEq

/-- Modelled from the spec: the data of a `RedisScanMigratingTask`
(`migration/scan_task.rs` is not in the source set): the source-role task
constructed from the cluster name, the tagged slot range and its
`MigrationMeta`; a fresh task starts at `PreCheck`. -/
structure RedisScanMigratingTask where
  cluster_name : ClusterName
  slot_range : SlotRange
  meta : MigrationMeta
  state : MigrationState
deriving DecidableEq

/-- Modelled from the spec: the data of a `RedisScanImportingTask`
(destination role); a fresh task starts at `PreCheck`. -/
structure RedisScanImportingTask where
  meta : MigrationMeta
  slot_range : SlotRange
  state : MigrationState
deriving DecidableEq

/-- Modelled from the spec: a task owns the slots of its range
(`contains_slot` of the `MigratingTask` trait). -/
def RedisScanMigratingTask.contains_slot (t : RedisScanMigratingTask) (slot : Nat) : Bool :=
  rangeListContainsSlot t.slot_range.range_list slot

/-- Modelled from the spec: `contains_slot` of the `ImportingTask` trait. -/
def RedisScanImportingTask.contains_slot (t : RedisScanImportingTask) (slot : Nat) : Bool :=
  rangeListContainsSlot t.slot_range.range_list slot

/-- Modelled from the spec: the importing task's switch handler; if the
task has not yet reached `Blocking` it answers `NotReady` (retriable),
otherwise it advances the switch and succeeds. -/
def RedisScanImportingTask.handle_switch (t : RedisScanImportingTask)
    (_switch_arg : SwitchArg) (_sub_cmd : MgrSubCmd) : Except MigrationError Unit :=
  match t.state with
  | .PreCheck => .error .NotReady
  | .PreBlocking => .error .NotReady
  | _ => .ok ()

end proto

/-! ### Command tasks and the cluster send-error type

`CmdTask` is a trait (`proxy/backend.rs`, not in the source set); the
operations `manager.rs` uses on it are `get_cluster_name`, `get_slot`,
`log_event` and `set_resp_result`.  A command task is modelled as its
observable data; `set_resp_result` (a reply sent on the task's channel) and
handing a task to a migration task's `send` are side effects, returned
explicitly as an effect trace.
-/

namespace proto

/-- A minimal model of the RESP values `manager.rs` constructs. -/
inductive Resp where
  | Error (s : String)
  | Simple (s : String)
  | Integer (s : String)
  | Bulk (s : String)
  | BulkNil
  | Arr (items : List Resp)
  | ArrNil

/-- `TaskEvent::SentToMigrationBackend` is the only slowlog event
`manager.rs` logs. -/
inductive TaskEvent where
  | SentToMigrationBackend
deriving DecidableEq

/-- Observable data of a command task: its cluster, the slot of its key
(`none` when the command has no key), and the slowlog events logged on it. -/
structure CmdTask where
  cluster_name : ClusterName
  slot : Option Nat
  events : List TaskEvent
deriving DecidableEq

/-- `CmdTask::get_cluster_name`. -/
def CmdTask.get_cluster_name (t : CmdTask) : ClusterName := t.cluster_name

/-- `CmdTask::get_slot`. -/
def CmdTask.get_slot (t : CmdTask) : Option Nat := t.slot

/-- `CmdTask::log_event`: records a slowlog event on the task. -/
def CmdTask.log_event (t : CmdTask) (e : TaskEvent) : CmdTask :=
  { t with events := t.events ++ [e] }

/-- `BlockingHint` of `proxy/blocking.rs` (not in the source set),
modelled from the spec. -/
inductive BlockingHint where
  | NotBlocking
  | Blocking
deriving DecidableEq

/-- `BlockingHintTask::new(task, hint)`. -/
structure BlockingHintTask where
  task : CmdTask
  hint : BlockingHint
deriving DecidableEq

/-- The variants of `ClusterSendError` (`proxy/cluster.rs`, not in the
source set) that `manager.rs` produces: `SlotNotFound` carries the command
task back for the non-migration route, `MissingKey` reports a command
without a key. -/
inductive ClusterSendError where
  | SlotNotFound (t : BlockingHintTask)
  | MissingKey
deriving DecidableEq

end proto

/-! ### `src/migration/manager.rs` -/

namespace manager

open proto

/-- `TaskRecord<T>`: either a migrating (source-role) task or an importing
(destination-role) task, `itertools::Either`. -/
abbrev TaskRecord := RedisScanMigratingTask ⊕ RedisScanImportingTask

/-- `MgrTask<T>`: a task record together with its stop handle.  The stop
handle is an opaque `Drop` guard with no observable data; it is not
modelled. -/
structure MgrTask where
  task : TaskRecord
deriving DecidableEq

/-- `ClusterTask<T> = HashMap<MigrationTaskMeta, Arc<MgrTask<T>>>`. -/
abbrev ClusterTask := List (MigrationTaskMeta × MgrTask)

/-- `TaskMap<T> = HashMap<ClusterName, ClusterTask<T>>`. -/
abbrev TaskMap := List (ClusterName × ClusterTask)

/-- `ProxyClusterMap` (`common/proto.rs`, not in the source set): the
cluster map pushed to one proxy, a map from cluster name to a map from
node address to its slot ranges; modelled from the spec. -/
abbrev ProxyClusterMap := List (ClusterName × List (String × List SlotRange))

/-- `NewTask<T>` as declared in `manager.rs`. -/
structure NewTask where
  cluster_name : ClusterName
  epoch : Nat
  range_list : RangeList
  task : TaskRecord
deriving DecidableEq

/-- The `MigrationTaskMeta` determined by a `NewTask`'s payload: its
cluster name together with the tagged slot range stored in the spawned
task. -/
def NewTask.task_meta (nt : NewTask) : MigrationTaskMeta :=
  match nt.task with
  | .inl t => { cluster_name := nt.cluster_name, slot_range := t.slot_range }
  | .inr t => { cluster_name := nt.cluster_name, slot_range := t.slot_range }

/-- `MigrationMap<T>` as declared in `manager.rs`. -/
structure MigrationMap where
  empty : Bool
  task_map : TaskMap
deriving DecidableEq

/-- `MigrationMap::empty()` (named `mkEmpty` here because `empty` is the
field's name): the empty map with the fast-path flag set. -/
def MigrationMap.mkEmpty : MigrationMap :=
  { empty := true, task_map := [] }

/-- `old_task_map.get(cluster_name).and_then(|tasks| tasks.get(&meta))`:
the task registered for a meta in its cluster. -/
def tmGet (m : TaskMap) (c : ClusterName) (meta : MigrationTaskMeta) : Option MgrTask :=
  (mapGet m c).bind (fun tasks => mapGet tasks meta)

/-- `map.entry(cluster).or_insert_with(HashMap::new).insert(meta, task)`. -/
def tmInsert (m : TaskMap) (c : ClusterName) (meta : MigrationTaskMeta)
    (t : MgrTask) : TaskMap :=
  mapInsert m c (mapInsert ((mapGet m c).getD []) meta t)

/-- Side effects of routing a command task: handing it to a task's
`send`/`send_sync_task`, or answering it directly via `set_resp_result`. -/
inductive Effect where
  | delegatedMigrating (t : RedisScanMigratingTask) (cmd : CmdTask)
  | delegatedImporting (t : RedisScanImportingTask) (cmd : CmdTask)
  | delegatedSyncMigrating (t : RedisScanMigratingTask) (cmd : CmdTask)
  | setResp (cmd : CmdTask) (resp : Resp)

/-- The `for mgr_task in tasks.values()` loop of `send_helper`: delegate to
the first task whose range contains the slot, else fall through to
`SlotNotFound`. -/
def sendLoop (cmd_task : CmdTask) (slot : Nat) :
    List (MigrationTaskMeta × MgrTask) → Except ClusterSendError Unit × List Effect
  | [] =>
    (.error (.SlotNotFound { task := cmd_task, hint := .NotBlocking }), [])
  | (_, mgr_task) :: rest =>
    match mgr_task.task with
    | .inl migrating_task =>
      if migrating_task.contains_slot slot then
        (.ok (), [.delegatedMigrating migrating_task cmd_task])
      else sendLoop cmd_task slot rest
    | .inr importing_task =>
      if importing_task.contains_slot slot then
        (.ok (), [.delegatedImporting importing_task cmd_task])
      else sendLoop cmd_task slot rest

/-- `MigrationMap::send_helper`. -/
def send_helper (task_map : TaskMap) (cmd_task : CmdTask) :
    Except ClusterSendError Unit × List Effect :=
  match mapGet task_map cmd_task.get_cluster_name with
  | some tasks =>
    match cmd_task.get_slot with
    | none =>
      let resp := Resp.Error "missing key"
      (.error .MissingKey, [.setResp cmd_task resp])
    | some slot => sendLoop cmd_task slot tasks
  | none =>
    (.error (.SlotNotFound { task := cmd_task, hint := .NotBlocking }), [])

/-- `MigrationMap::send`: log the slowlog event, take the fast path when
the map is flagged empty, otherwise route through `send_helper`. -/
def MigrationMap.send (self : MigrationMap) (cmd_task : CmdTask) :
    Except ClusterSendError Unit × List Effect :=
  let cmd_task := cmd_task.log_event .SentToMigrationBackend
  if self.empty then
    (.error (.SlotNotFound { task := cmd_task, hint := .NotBlocking }), [])
  else
    send_helper self.task_map cmd_task

/-- The `for mgr_task in tasks.values()` loop of `send_sync_task`: only
`Either::Left` (migrating) tasks are considered. -/
def sendSyncLoop (cmd_task : CmdTask) (slot : Nat) :
    List (MigrationTaskMeta × MgrTask) → Option (Except ClusterSendError Unit × List Effect)
  | [] => Option.none
  | (_, mgr_task) :: rest =>
    match mgr_task.task with
    | .inl migrating_task =>
      if migrating_task.contains_slot slot then
        some (.ok (), [.delegatedSyncMigrating migrating_task cmd_task])
      else sendSyncLoop cmd_task slot rest
    | .inr _ => sendSyncLoop cmd_task slot rest

/-- `MigrationMap::send_sync_task`: same shape as `send` but delegates only
to migrating-role tasks; anything else falls through to `SlotNotFound`. -/
def MigrationMap.send_sync_task (self : MigrationMap) (cmd_task : CmdTask) :
    Except ClusterSendError Unit × List Effect :=
  let cmd_task := cmd_task.log_event .SentToMigrationBackend
  if self.empty then
    (.error (.SlotNotFound { task := cmd_task, hint := .NotBlocking }), [])
  else
    match mapGet self.task_map cmd_task.get_cluster_name with
    | some tasks =>
      match cmd_task.get_slot with
      | none =>
        let resp := Resp.Error "missing key"
        (.error .MissingKey, [.setResp cmd_task resp])
      | some slot =>
        match sendSyncLoop cmd_task slot tasks with
        | some r => r
        | none =>
          (.error (.SlotNotFound { task := cmd_task, hint := .NotBlocking }), [])
    | none =>
      (.error (.SlotNotFound { task := cmd_task, hint := .NotBlocking }), [])

/-- One slot range of the first pass of `update_from_old_task_map`: a
`Migrating`- or `Importing`-tagged range whose `MigrationTaskMeta` is
registered in the old task map keeps the old (running) task record. -/
def firstPassStep (old_task_map : TaskMap) (acc : TaskMap)
    (p : ClusterName × SlotRange) : TaskMap :=
  match p.2.tag with
  | .Migrating _ =>
    let migration_meta : MigrationTaskMeta :=
      { cluster_name := p.1, slot_range := p.2 }
    match tmGet old_task_map p.1 migration_meta with
    | some migrating_task => tmInsert acc p.1 migration_meta migrating_task
    | Option.none => acc
  | .Importing _ =>
    let migration_meta : MigrationTaskMeta :=
      { cluster_name := p.1, slot_range := p.2 }
    match tmGet old_task_map p.1 migration_meta with
    | some importing_task => tmInsert acc p.1 migration_meta importing_task
    | Option.none => acc
  | .none => acc

/-- The first nested loop of `update_from_old_task_map` over the new
cluster map. -/
def firstPass (old_task_map : TaskMap) (m : ProxyClusterMap) : TaskMap :=
  m.foldl
    (fun acc p =>
      p.2.foldl
        (fun acc q =>
          q.2.foldl (fun acc sr => firstPassStep old_task_map acc (p.1, sr)) acc)
        acc)
    []

/-- One slot range of the second pass: a tagged range whose meta is not yet
present gets a fresh task, registered in the map and pushed on the
`NewTask` list. -/
def secondPassStep (st : TaskMap × List NewTask)
    (p : ClusterName × SlotRange) : TaskMap × List NewTask :=
  let migration_clusters := st.1
  let new_tasks := st.2
  match p.2.tag with
  | .Migrating meta =>
    let epoch := meta.epoch
    let migration_meta : MigrationTaskMeta :=
      { cluster_name := p.1, slot_range := p.2 }
    if ((mapGet migration_clusters p.1).map
        (fun tasks => mapContainsKey tasks migration_meta)) = some true then
      (migration_clusters, new_tasks)
    else
      let task : RedisScanMigratingTask :=
        { cluster_name := p.1, slot_range := p.2, meta := meta, state := .PreCheck }
      (tmInsert migration_clusters p.1 migration_meta { task := .inl task },
       new_tasks ++ [{ cluster_name := p.1, epoch := epoch,
                       range_list := p.2.to_range_list, task := .inl task }])
  | .Importing meta =>
    let epoch := meta.epoch
    let migration_meta : MigrationTaskMeta :=
      { cluster_name := p.1, slot_range := p.2 }
    if ((mapGet migration_clusters p.1).map
        (fun tasks => mapContainsKey tasks migration_meta)) = some true then
      (migration_clusters, new_tasks)
    else
      let task : RedisScanImportingTask :=
        { meta := meta, slot_range := p.2, state := .PreCheck }
      (tmInsert migration_clusters p.1 migration_meta { task := .inr task },
       new_tasks ++ [{ cluster_name := p.1, epoch := epoch,
                       range_list := p.2.to_range_list, task := .inr task }])
  | .none => (migration_clusters, new_tasks)

/-- The second nested loop of `update_from_old_task_map`. -/
def secondPass (mc : TaskMap) (m : ProxyClusterMap) : TaskMap × List NewTask :=
  m.foldl
    (fun st p =>
      p.2.foldl
        (fun st q =>
          q.2.foldl (fun st sr => secondPassStep st (p.1, sr)) st)
        st)
    (mc, [])

/-- `MigrationMap::update_from_old_task_map`: diff the old task map against
the new cluster map by `MigrationTaskMeta`, keep running tasks, create
fresh ones, and set the fast-path flag from the result.  The factory and
configuration arguments of the Rust function only parameterize the spawned
tasks' internals (which are modelled by their data) and are omitted. -/
def MigrationMap.update_from_old_task_map (self : MigrationMap)
    (local_cluster_map : ProxyClusterMap) : MigrationMap × List NewTask :=
  let old_task_map := self.task_map
  let migration_clusters := firstPass old_task_map local_cluster_map
  let r := secondPass migration_clusters local_cluster_map
  ({ empty := r.1.isEmpty, task_map := r.1 }, r.2)

/-- `SwitchError` as declared in `manager.rs`. -/
inductive SwitchError where
  | InvalidArg
  | TaskNotFound
  | PeerMigrating
  | NotReady
  | MgrErr (e : MigrationError)
deriving DecidableEq

/-- `MigrationMap::handle_switch`: a migrating-role task under the given
meta answers `PeerMigrating`; an importing-role task handles the switch,
with `MigrationError::NotReady` surfaced as `SwitchError::NotReady`; a
missing cluster or meta answers `TaskNotFound`. -/
def MigrationMap.handle_switch (self : MigrationMap)
    (switch_arg : SwitchArg) (sub_cmd : MgrSubCmd) : Except SwitchError Unit :=
  match mapGet self.task_map switch_arg.meta.cluster_name with
  | some tasks =>
    match mapGet tasks switch_arg.meta with
    | some mgr_task =>
      match mgr_task.task with
      | .inl _ => .error .PeerMigrating
      | .inr importing_task =>
        match importing_task.handle_switch switch_arg sub_cmd with
        | .ok () => .ok ()
        | .error .NotReady => .error .NotReady
        | .error others => .error (.MgrErr others)
    | Option.none => .error .TaskNotFound
  | Option.none => .error .TaskNotFound

/-- `MigrationMap::get_finished_tasks`: metas of tasks at
`SwitchCommitted`. -/
def MigrationMap.get_finished_tasks (self : MigrationMap) : List MigrationTaskMeta :=
  self.task_map.foldl
    (fun metadata p =>
      p.2.foldl
        (fun metadata q =>
          let state :=
            match q.2.task with
            | .inl migrating_task => migrating_task.state
            | .inr importing_task => importing_task.state
          if state = .SwitchCommitted then metadata ++ [q.1] else metadata)
        metadata)
    []

/-- The flattened tagged ranges of a proxy cluster map, cluster by cluster,
node by node: the iteration domain of both passes. -/
def flatRanges (m : ProxyClusterMap) : List (ClusterName × SlotRange) :=
  m.flatMap (fun p => p.2.flatMap (fun q => q.2.map (fun sr => (p.1, sr))))

end manager

/-! ### `src/replication/replicator.rs` -/

namespace replicator

open proto

/-- `ReplPeer` (`common/cluster.rs` of this version does not declare it;
modelled from its use here): a node address plus its proxy address. -/
structure ReplPeer where
  node_address : String
  proxy_address : String
deriving DecidableEq

/-- Modelled from the spec: `DBMapFlags` (`common/db.rs` is not in the
source set) holds the single `force` flag; `to_arg` prints `FORCE` or
`NOFLAG` and `from_arg` reads the flag back case-insensitively, as
exercised by the unit tests of `replicator.rs`. -/
structure DBMapFlags where
  force : Bool
deriving DecidableEq

/-- Rust `str::to_uppercase` on the ASCII strings this protocol uses. -/
def toUppercase (s : String) : String :=
  ⟨s.data.map Char.toUpper⟩

/-- Modelled from the spec: `DBMapFlags::to_arg`. -/
def DBMapFlags.to_arg (f : DBMapFlags) : String :=
  if f.force then "FORCE" else "NOFLAG"

/-- Modelled from the spec: `DBMapFlags::from_arg`. -/
def DBMapFlags.from_arg (s : String) : DBMapFlags :=
  { force := toUppercase s = "FORCE" }

/-- `MasterMeta` as declared in `replicator.rs`. -/
structure MasterMeta where
  db_name : String
  master_node_address : String
  replicas : List ReplPeer
deriving DecidableEq

/-- `ReplicaMeta` as declared in `replicator.rs`. -/
structure ReplicaMeta where
  db_name : String
  replica_node_address : String
  masters : List ReplPeer
deriving DecidableEq

/-- `ReplicatorMeta` as declared in `replicator.rs`. -/
structure ReplicatorMeta where
  epoch : Nat
  flags : DBMapFlags
  masters : List MasterMeta
  replicas : List ReplicaMeta
deriving DecidableEq

/-- `CmdParseError` (`common/utils.rs`): the unit parse-error value. -/
structure CmdParseError where
deriving DecidableEq

/-- The token stream of `parse_repl_meta`: skip the two command tokens,
then keep the UTF-8 text of every bulk string
(`arr.iter().skip(2).flat_map(...)`; byte strings are modelled as `String`,
so `str::from_utf8` always succeeds). -/
def bulkTokens (arr : List Resp) : List String :=
  (arr.drop 2).filterMap (fun r =>
    match r with
    | .Bulk s => some s
    | _ => Option.none)

/-- The `for _ in 0..peer_num` loop of `parse_repl_meta`: read `n` peers
(two tokens each) off the stream. -/
def parsePeers : Nat → List String → Option (List ReplPeer × List String)
  | 0, l => some ([], l)
  | n + 1, node_address :: proxy_address :: rest =>
    (parsePeers n rest).map
      (fun pr => ({ node_address := node_address,
                    proxy_address := proxy_address } :: pr.1, pr.2))
  | _ + 1, _ => Option.none

/-- The `while it.peek().is_some()` loop of `parse_repl_meta`, with fuel:
each iteration reads a role, a db name, a node address, a peer count and
the peers, appending to the master or replica list by role.  A successful
iteration consumes at least four tokens, so `fuel = l.length` (as the
wrapper below passes) never runs out before the stream is empty. -/
def parseEntriesLoop : Nat → List String →
    Option (List MasterMeta × List ReplicaMeta)
  | _, [] => some ([], [])
  | fuel + 1, role :: db_name :: node_address :: peer_num_str :: rest =>
    match parseNat peer_num_str with
    | Option.none => Option.none
    | some peer_num =>
      match parsePeers peer_num rest with
      | Option.none => Option.none
      | some (peers, rest') =>
        if toUppercase role = "MASTER" then
          (parseEntriesLoop fuel rest').map
            (fun mr => ({ db_name := db_name, master_node_address := node_address,
                          replicas := peers } :: mr.1, mr.2))
        else if toUppercase role = "REPLICA" then
          (parseEntriesLoop fuel rest').map
            (fun mr => (mr.1, { db_name := db_name,
                                replica_node_address := node_address,
                                masters := peers } :: mr.2))
        else Option.none
  | _, _ => Option.none

/-- `parse_repl_meta` as defined in `replicator.rs`: match the RESP array,
drop the two command tokens, read the epoch and the flags, then the role
entries. -/
def parse_repl_meta (resp : Resp) : Except CmdParseError ReplicatorMeta :=
  match resp with
  | .Arr arr =>
    match bulkTokens arr with
    | [] => .error {}
    | epoch_str :: rest =>
      match parseNat epoch_str with
      | Option.none => .error {}
      | some epoch =>
        match rest with
        | [] => .error {}
        | flags_str :: rest =>
          let flags := DBMapFlags.from_arg flags_str
          match parseEntriesLoop rest.length rest with
          | Option.none => .error {}
          | some (masters, replicas) =>
            .ok { epoch := epoch, flags := flags,
                  masters := masters, replicas := replicas }
  | _ => .error {}

/-- `encode_repl_meta` as defined in `replicator.rs`: the epoch, the flags,
then each master and each replica with its peer list. -/
def encode_repl_meta (meta : ReplicatorMeta) : List String :=
  [natToString meta.epoch, meta.flags.to_arg]
  ++ meta.masters.flatMap (fun master =>
      ["master", master.db_name, master.master_node_address,
       natToString master.replicas.length]
      ++ master.replicas.flatMap (fun replica =>
          [replica.node_address, replica.proxy_address]))
  ++ meta.replicas.flatMap (fun replica =>
      ["replica", replica.db_name, replica.replica_node_address,
       natToString replica.masters.length]
      ++ replica.masters.flatMap (fun master =>
          [master.node_address, master.proxy_address]))

/-- The RESP array of a `UMCTL SETREPL` command: the two command tokens
followed by the encoded meta, all as bulk strings. -/
def setReplResp (meta : ReplicatorMeta) : Resp :=
  .Arr ([Resp.Bulk "UMCTL", Resp.Bulk "SETREPL"]
        ++ (encode_repl_meta meta).map (fun s => Resp.Bulk s))

end replicator

/-! ### `src/broker/service.rs`

The `MetaStore` itself lives in `broker/store.rs`, which is not in the
source set; the handlers of `service.rs` are embedded over a minimal store
model and, where a handler is generic in the store operation it invokes,
over that operation as a parameter.  External I/O (persistence sync, epoch
gossip over the network) is passed in as its outcome.
-/

namespace broker

/-- Modelled from the spec: the outcome kinds of a persistence or
replication sync (`broker/persistence.rs` is not in the source set). -/
inductive MetaSyncError where
  | Lock
  | Json
  | Io
deriving DecidableEq

/-- `MetaStoreError`: the exhaustive variant list, read off the
`status_code` match of `service.rs`. -/
inductive MetaStoreError where
  | InUse
  | NotInUse
  | NoAvailableResource
  | ResourceNotBalance
  | AlreadyExisted
  | ClusterNotFound
  | FreeNodeNotFound
  | FreeNodeFound
  | ProxyNotFound
  | InvalidNodeNum
  | NodeNumAlreadyEnough
  | InvalidClusterName
  | InvalidMigrationTask
  | InvalidProxyAddress
  | MigrationTaskNotFound
  | MigrationRunning
  | InvalidConfig
  | SlotsAlreadyEven
  | SyncError (e : MetaSyncError)
  | InvalidMetaVersion
  | SmallEpoch
  | MissingIndex
  | ProxyResourceOutOfOrder
  | OrderedProxyEnabled
  | OneClusterAlreadyExisted
  | ProxyNotSync
  | NodeNumberChanging
deriving DecidableEq

/-- `impl ResponseError for MetaStoreError`: the HTTP status of each error
(`CONFLICT` 409, `NOT_FOUND` 404, `BAD_REQUEST` 400,
`INTERNAL_SERVER_ERROR` 500), exactly as matched in `service.rs`. -/
def MetaStoreError.status_code : MetaStoreError → Nat
  | .InUse => 409
  | .NotInUse => 409
  | .NoAvailableResource => 409
  | .ResourceNotBalance => 409
  | .AlreadyExisted => 409
  | .ClusterNotFound => 404
  | .FreeNodeNotFound => 404
  | .FreeNodeFound => 409
  | .ProxyNotFound => 404
  | .InvalidNodeNum => 400
  | .NodeNumAlreadyEnough => 409
  | .InvalidClusterName => 400
  | .InvalidMigrationTask => 400
  | .InvalidProxyAddress => 400
  | .MigrationTaskNotFound => 404
  | .MigrationRunning => 409
  | .InvalidConfig => 400
  | .SlotsAlreadyEven => 400
  | .SyncError _ => 500
  | .InvalidMetaVersion => 409
  | .SmallEpoch => 409
  | .MissingIndex => 400
  | .ProxyResourceOutOfOrder => 409
  | .OrderedProxyEnabled => 409
  | .OneClusterAlreadyExisted => 409
  | .ProxyNotSync => 500
  | .NodeNumberChanging => 409

/-- Modelled from the spec: the slice of the `MetaStore`
(`broker/store.rs`, not in the source set) the embedded handlers touch:
the global epoch and the registered proxy addresses. -/
structure MetaStore where
  global_epoch : Nat
  proxies : List String
deriving DecidableEq

/-- Modelled from the spec: `MetaStore::recover_epoch(e)` sets
`global_epoch := max(global_epoch, e)` unconditionally. -/
def MetaStore.recover_epoch (s : MetaStore) (exist_epoch : Nat) : MetaStore :=
  { s with global_epoch := max s.global_epoch exist_epoch }

/-- Modelled from the spec: `fetch_max_epoch`'s aggregate
(`broker/epoch.rs`, not in the source set): the largest epoch any live
proxy reported, with the addresses that failed to answer. -/
structure EpochFetchResult where
  max_epoch : Nat
  failed_addresses : List String
deriving DecidableEq

/-- The state of a `MemBrokerService`: its store and the
`auto_update_meta_file` configuration flag (the fields driving the
embedded handlers). -/
structure MemBrokerService where
  auto_update_meta_file : Bool
  store : MetaStore
deriving DecidableEq

/-- `MemBrokerService::trigger_update`: persist the meta file when
`auto_update_meta_file` is set; the persistence outcome of the
`MetaStorage` sink is passed in. -/
def MemBrokerService.trigger_update (svc : MemBrokerService)
    (persist_outcome : Except MetaSyncError Unit) : Except MetaSyncError Unit :=
  if svc.auto_update_meta_file then persist_outcome else .ok ()

/-- `MemBrokerService::recover_epoch` (the `PUT /epoch/recovery` handler's
service call): read the proxies, gossip their epochs (result passed in),
set `global_epoch := max(global_epoch, max_epoch + 1)` through the store's
`recover_epoch`, and return the failed addresses. -/
def MemBrokerService.recover_epoch (svc : MemBrokerService)
    (fetch : EpochFetchResult) : MemBrokerService × Except MetaStoreError (List String) :=
  let max_epoch := fetch.max_epoch
  let failed_addresses := fetch.failed_addresses
  ({ svc with store := svc.store.recover_epoch (max_epoch + 1) },
   .ok failed_addresses)

/-- The `balance_masters` HTTP handler: run the store mutation (a
`MetaStore`-level operation of `broker/store.rs`, passed in as `op`), then
`trigger_update`; the store result is unwrapped first, then the sync
result, so a store success followed by a persistence failure surfaces the
`SyncError` while the mutated store stands. -/
def balance_masters_handler (svc : MemBrokerService)
    (op : MetaStore → MetaStore × Except MetaStoreError Unit)
    (persist_outcome : Except MetaSyncError Unit) :
    MemBrokerService × Except MetaStoreError String :=
  let r := op svc.store
  let svc := { svc with store := r.1 }
  let res := r.2.map (fun _ => "")
  let sync_res := svc.trigger_update persist_outcome
  match res with
  | .error e => (svc, .error e)
  | .ok s =>
    match sync_res with
    | .error e => (svc, .error (.SyncError e))
    | .ok () => (svc, .ok s)

/-- `ReplaceProxyResponse { proxy }` with the proxy modelled by its
address. -/
structure ReplaceProxyResponse where
  proxy : Option String
deriving DecidableEq

/-- The `replace_failed_node` HTTP handler (`POST /proxies/failover`):
same error discipline as `balance_masters_handler`, with the replacement
proxy as payload. -/
def replace_failed_node_handler (svc : MemBrokerService)
    (op : MetaStore → MetaStore × Except MetaStoreError (Option String))
    (persist_outcome : Except MetaSyncError Unit) :
    MemBrokerService × Except MetaStoreError ReplaceProxyResponse :=
  let r := op svc.store
  let svc := { svc with store := r.1 }
  let res := r.2.map (fun proxy => ReplaceProxyResponse.mk proxy)
  let sync_res := svc.trigger_update persist_outcome
  match res with
  | .error e => (svc, .error e)
  | .ok payload =>
    match sync_res with
    | .error e => (svc, .error (.SyncError e))
    | .ok () => (svc, .ok payload)

/-- HTTP methods. -/
inductive HttpMethod where
  | GET
  | PUT
  | POST
  | PATCH
  | DELETE
deriving DecidableEq

/-- An acquisition of the shared `RwLock<MetaStore>`. -/
inductive LockAccess where
  | read
  | write
deriving DecidableEq

/-- One route of `configure_app`: its method and path, the sequence of
store-lock acquisitions its handler performs (read off the
`MemBrokerService` methods of `service.rs`), and whether the handler can
mutate the `MetaStore`. -/
structure Route where
  method : HttpMethod
  path : String
  locks : List LockAccess
  mutates_store : Bool
deriving DecidableEq

/-- The route table of `configure_app` in declaration order.  Lock usage
per handler, from `service.rs`: every mutation goes through
`store.write()`; the reads go through `store.read()`; `GET /version` and
the config routes touch no store lock; `GET /failures` calls
`MemBrokerService::get_failures`, which takes `store.write()` because the
store's `get_failures` prunes expired failure reports;
`POST /clusters/migrations/auto` takes the write lock twice (its two
phases); `PUT /epoch/recovery` reads the proxies then writes the epoch. -/
def routes : List Route :=
  [ { method := .GET, path := "/version", locks := [], mutates_store := false },
    { method := .GET, path := "/metadata", locks := [.read], mutates_store := false },
    { method := .PUT, path := "/metadata", locks := [.write], mutates_store := true },
    { method := .GET, path := "/clusters/names", locks := [.read], mutates_store := false },
    { method := .GET, path := "/clusters/meta/{cluster_name}", locks := [.read],
      mutates_store := false },
    { method := .GET, path := "/proxies/addresses", locks := [.read], mutates_store := false },
    { method := .GET, path := "/proxies/meta/{address}", locks := [.read],
      mutates_store := false },
    { method := .GET, path := "/failures", locks := [.write], mutates_store := true },
    { method := .POST, path := "/failures/{server_proxy_address}/{reporter_id}",
      locks := [.write], mutates_store := true },
    { method := .POST, path := "/proxies/failover/{address}", locks := [.write],
      mutates_store := true },
    { method := .PUT, path := "/clusters/migrations", locks := [.write], mutates_store := true },
    { method := .GET, path := "/proxies/failed/addresses", locks := [.read],
      mutates_store := false },
    { method := .GET, path := "/clusters/info/{cluster_name}", locks := [.read],
      mutates_store := false },
    { method := .POST, path := "/clusters/meta/{cluster_name}", locks := [.write],
      mutates_store := true },
    { method := .DELETE, path := "/clusters/meta/{cluster_name}", locks := [.write],
      mutates_store := true },
    { method := .PATCH, path := "/clusters/nodes/{cluster_name}", locks := [.write],
      mutates_store := true },
    { method := .PUT, path := "/clusters/nodes/{cluster_name}", locks := [.write],
      mutates_store := true },
    { method := .DELETE, path := "/clusters/free_nodes/{cluster_name}", locks := [.write],
      mutates_store := true },
    { method := .POST, path := "/clusters/migrations/shrink/{cluster_name}/{node_number}",
      locks := [.write], mutates_store := true },
    { method := .POST, path := "/clusters/migrations/expand/{cluster_name}",
      locks := [.write], mutates_store := true },
    { method := .POST, path := "/clusters/migrations/auto/{cluster_name}/{node_number}",
      locks := [.write, .write], mutates_store := true },
    { method := .PATCH, path := "/clusters/config/{cluster_name}", locks := [.write],
      mutates_store := true },
    { method := .PUT, path := "/clusters/balance/{cluster_name}", locks := [.write],
      mutates_store := true },
    { method := .POST, path := "/proxies/meta", locks := [.write], mutates_store := true },
    { method := .DELETE, path := "/proxies/meta/{proxy_address}", locks := [.write],
      mutates_store := true },
    { method := .POST, path := "/resources/failures/check", locks := [.read],
      mutates_store := false },
    { method := .PUT, path := "/config", locks := [], mutates_store := false },
    { method := .GET, path := "/config", locks := [], mutates_store := false },
    { method := .GET, path := "/epoch", locks := [.read], mutates_store := false },
    { method := .PUT, path := "/epoch/recovery", locks := [.read, .write],
      mutates_store := true },
    { method := .PUT, path := "/epoch/{new_epoch}", locks := [.write], mutates_store := true } ]

end broker

/-! ## Lemmas: association-list maps -/

theorem mapGet_mapInsert_self {α β : Type} [DecidableEq α]
    (m : List (α × β)) (k : α) (v : β) :
    mapGet (mapInsert m k v) k = some v := by
  induction m with
  | nil => simp [mapInsert, mapGet]
  | cons p rest ih =>
    obtain ⟨k', v'⟩ := p
    by_cases h : k = k'
    · simp [mapInsert, h, mapGet]
    · simp [mapInsert, h, mapGet, ih]

theorem mapGet_mapInsert_ne {α β : Type} [DecidableEq α]
    (m : List (α × β)) (k k₂ : α) (v : β) (h : k₂ ≠ k) :
    mapGet (mapInsert m k v) k₂ = mapGet m k₂ := by
  induction m with
  | nil => simp [mapInsert, mapGet, h]
  | cons p rest ih =>
    obtain ⟨k', v'⟩ := p
    by_cases hk : k = k'
    · subst hk
      simp [mapInsert, mapGet, h]
    · by_cases hk2 : k₂ = k'
      · simp [mapInsert, hk, mapGet, hk2]
      · simp [mapInsert, hk, mapGet, hk2, ih]

theorem mapInsert_ne_nil {α β : Type} [DecidableEq α]
    (m : List (α × β)) (k : α) (v : β) :
    mapInsert m k v ≠ [] := by
  cases m with
  | nil => simp [mapInsert]
  | cons p rest =>
    obtain ⟨k', v'⟩ := p
    by_cases h : k = k' <;> simp [mapInsert, h]

theorem mem_mapInsert {α β : Type} [DecidableEq α]
    (m : List (α × β)) (k : α) (v : β) (p : α × β)
    (hp : p ∈ mapInsert m k v) : p = (k, v) ∨ p ∈ m := by
  induction m with
  | nil => simpa [mapInsert] using hp
  | cons q rest ih =>
    obtain ⟨k', v'⟩ := q
    by_cases h : k = k'
    · simp only [mapInsert, if_pos h] at hp
      rcases List.mem_cons.mp hp with h1 | h1
      · exact Or.inl h1
      · exact Or.inr (List.mem_cons_of_mem _ h1)
    · simp only [mapInsert, if_neg h] at hp
      rcases List.mem_cons.mp hp with h1 | h1
      · exact Or.inr (h1 ▸ List.mem_cons_self _ _)
      · rcases ih h1 with h2 | h2
        · exact Or.inl h2
        · exact Or.inr (List.mem_cons_of_mem _ h2)

theorem manager.tmGet_tmInsert_self (m : manager.TaskMap) (c : proto.ClusterName)
    (mt : proto.MigrationTaskMeta) (t : manager.MgrTask) :
    manager.tmGet (manager.tmInsert m c mt t) c mt = some t := by
  unfold manager.tmGet manager.tmInsert
  rw [mapGet_mapInsert_self]
  simp [mapGet_mapInsert_self]

theorem manager.tmGet_tmInsert_other (m : manager.TaskMap) (c c₂ : proto.ClusterName)
    (mt mt₂ : proto.MigrationTaskMeta) (t : manager.MgrTask)
    (h : ¬(c₂ = c ∧ mt₂ = mt)) :
    manager.tmGet (manager.tmInsert m c mt t) c₂ mt₂ = manager.tmGet m c₂ mt₂ := by
  unfold manager.tmGet manager.tmInsert
  by_cases hc : c₂ = c
  · subst hc
    have hmt : mt₂ ≠ mt := fun hmt => h ⟨rfl, hmt⟩
    rw [mapGet_mapInsert_self]
    cases hg : mapGet m c₂ with
    | none => simp [Option.bind, mapGet_mapInsert_ne _ _ _ _ hmt, hg, mapGet, hmt]
    | some ts => simp [Option.bind, mapGet_mapInsert_ne _ _ _ _ hmt, hg]
  · rw [mapGet_mapInsert_ne _ _ _ _ hc]

/-! ## Lemmas: folds -/

theorem foldl_pres {σ χ : Type} (f : σ → χ → σ) (P : σ → Prop) (l : List χ)
    (hstep : ∀ s x, x ∈ l → P s → P (f s x)) (s : σ) (hs : P s) :
    P (l.foldl f s) := by
  induction l generalizing s with
  | nil => exact hs
  | cons x rest ih =>
    exact ih (fun s' y hy => hstep s' y (List.mem_cons_of_mem _ hy))
      (f s x) (hstep s x (List.mem_cons_self _ _) hs)

theorem foldl_flatMap {α β γ : Type} (g : α → List β) (f : γ → β → γ)
    (l : List α) (init : γ) :
    (l.flatMap g).foldl f init = l.foldl (fun acc a => (g a).foldl f acc) init := by
  induction l generalizing init with
  | nil => rfl
  | cons a rest ih =>
    simp only [List.flatMap_cons, List.foldl_append, List.foldl_cons]
    exact ih _

theorem manager.firstPass_eq_flat (old : manager.TaskMap) (m : manager.ProxyClusterMap) :
    manager.firstPass old m
      = (manager.flatRanges m).foldl (manager.firstPassStep old) [] := by
  unfold manager.firstPass manager.flatRanges
  rw [foldl_flatMap]
  congr 1
  funext acc p
  rw [foldl_flatMap]
  congr 1
  funext acc' q
  rw [List.foldl_map]

theorem manager.secondPass_eq_flat (mc : manager.TaskMap) (m : manager.ProxyClusterMap) :
    manager.secondPass mc m
      = (manager.flatRanges m).foldl manager.secondPassStep (mc, []) := by
  unfold manager.secondPass manager.flatRanges
  rw [foldl_flatMap]
  congr 1
  funext st p
  rw [foldl_flatMap]
  congr 1
  funext st' q
  rw [List.foldl_map]

/-! ## Claim C3 -/

/-- C3: the claim says a slot range's tag admits the three cases `None`,
`Migrating(MigrationMeta)` and `Importing(MigrationMeta)` and that a
serialized `Importing` tag deserializes.  In `src/common/cluster.rs` the
tag admits exactly two cases — `Migrating` carrying only a destination
string, and `None` — and deserializing an `importing ...` string fails
with `Invalid flag`. -/
theorem C3_slot_range_tag_two_cases :
    cluster.SlotRangeTag.deserialize
        "importing 233 127.0.0.1:7000 127.0.0.1:6000 127.0.0.1:7001 127.0.0.1:6001"
      = .error "Invalid flag" ∧
    (∀ t : cluster.SlotRangeTag, (∃ dst, t = .Migrating dst) ∨ t = .None) ∧
    cluster.SlotRangeTag.deserialize "migrating 127.0.0.1:7001"
      = .ok (.Migrating "127.0.0.1:7001") := by
  refine ⟨by rfl, ?_, by rfl⟩
  intro t
  cases t with
  | Migrating dst => exact Or.inl ⟨dst, rfl⟩
  | None => exact Or.inr rfl

/-! ## Claim C5 -/

/-- C5: the `PUT /epoch/recovery` service call sets the store's global
epoch to `max(global_epoch, max_reported_epoch + 1)` and returns the
proxies that failed to answer the epoch gossip; with a stale global epoch
10 and a maximum reported epoch 25 the resulting global epoch is 26. -/
theorem C5_recover_epoch :
    (∀ (svc : broker.MemBrokerService) (fetch : broker.EpochFetchResult),
      (svc.recover_epoch fetch).1.store.global_epoch
          = max svc.store.global_epoch (fetch.max_epoch + 1) ∧
      (svc.recover_epoch fetch).1.store.proxies = svc.store.proxies ∧
      (svc.recover_epoch fetch).2 = .ok fetch.failed_addresses) ∧
    (broker.MemBrokerService.recover_epoch ⟨true, ⟨10, []⟩⟩
        ⟨25, []⟩).1.store.global_epoch = 26 := by
  exact ⟨fun svc fetch => ⟨rfl, rfl, rfl⟩, rfl⟩

/-! ## Claim C7 -/

/-- C7: on `PUT /clusters/balance/{name}` and `POST /proxies/failover/{addr}`,
if the store-level operation succeeds but the subsequent persistence update
fails, the handler returns the `SyncError` (mapped to HTTP 500) while the
in-memory store keeps the mutation — it is not rolled back. -/
theorem C7_sync_error_no_rollback (svc : broker.MemBrokerService)
    (op : broker.MetaStore → broker.MetaStore × Except broker.MetaStoreError Unit)
    (opR : broker.MetaStore → broker.MetaStore × Except broker.MetaStoreError (Option String))
    (e : broker.MetaSyncError) (st1 st2 : broker.MetaStore) (pr : Option String)
    (hauto : svc.auto_update_meta_file = true)
    (hop : op svc.store = (st1, .ok ()))
    (hopR : opR svc.store = (st2, .ok pr)) :
    broker.balance_masters_handler svc op (.error e)
      = ({ svc with store := st1 }, .error (.SyncError e)) ∧
    broker.replace_failed_node_handler svc opR (.error e)
      = ({ svc with store := st2 }, .error (.SyncError e)) ∧
    (broker.MetaStoreError.SyncError e).status_code = 500 := by
  unfold broker.balance_masters_handler broker.replace_failed_node_handler
    broker.MemBrokerService.trigger_update
  rw [hop, hopR]
  simp [hauto, Except.map, broker.MetaStoreError.status_code]

/-- Witness for C7 at a concrete service and operations. -/
theorem C7_sync_error_no_rollback_witness :
    ((fun _s => ((⟨7, []⟩ : broker.MetaStore), (.ok () : Except broker.MetaStoreError Unit)))
        (broker.MetaStore.mk 0 []) = ((⟨7, []⟩ : broker.MetaStore), .ok ()) ∧
     (fun _s => ((⟨8, []⟩ : broker.MetaStore),
        (.ok (some "p1") : Except broker.MetaStoreError (Option String))))
        (broker.MetaStore.mk 0 []) = ((⟨8, []⟩ : broker.MetaStore), .ok (some "p1"))) ∧
    broker.balance_masters_handler ⟨true, ⟨0, []⟩⟩
        (fun _s => (⟨7, []⟩, .ok ())) (.error .Lock)
      = (⟨true, ⟨7, []⟩⟩, .error (.SyncError .Lock)) := by
  refine ⟨⟨rfl, rfl⟩, ?_⟩
  exact (C7_sync_error_no_rollback ⟨true, ⟨0, []⟩⟩
    (fun _s => (⟨7, []⟩, .ok ())) (fun _s => (⟨8, []⟩, .ok (some "p1")))
    .Lock ⟨7, []⟩ ⟨8, []⟩ (some "p1") rfl rfl rfl).1

/-! ## Claim C8 -/

/-- C8 counterexample: it is not the case that every `GET` route takes only
the read lock and leaves the store unchanged — `GET /failures` takes the
write lock and mutates the store (its handler prunes expired failure
reports). -/
theorem C8_counterexample :
    ¬ (∀ r ∈ broker.routes, r.method = broker.HttpMethod.GET →
        (∀ l ∈ r.locks, l = broker.LockAccess.read) ∧ r.mutates_store = false) := by
  decide

/-- C8 amended: every `GET` route other than `GET /failures` takes only the
read lock on the store and does not mutate it; `GET /failures` is the one
exception — its handler takes the write lock (and prunes expired failure
reports) — and every route that mutates the store takes the write lock. -/
theorem C8_read_locks_amended :
    (∀ r ∈ broker.routes, r.method = broker.HttpMethod.GET → r.path ≠ "/failures" →
      (∀ l ∈ r.locks, l = broker.LockAccess.read) ∧ r.mutates_store = false) ∧
    ({ method := .GET, path := "/failures", locks := [.write], mutates_store := true }
        : broker.Route) ∈ broker.routes ∧
    (∀ r ∈ broker.routes, r.mutates_store = true →
      broker.LockAccess.write ∈ r.locks) := by
  decide

/-- Witness for C8's amended statement at the `GET /metadata` route. -/
theorem C8_read_locks_amended_witness :
    (∀ l ∈ [broker.LockAccess.read], l = broker.LockAccess.read) ∧ false = false :=
  C8_read_locks_amended.1
    { method := .GET, path := "/metadata", locks := [.read], mutates_store := false }
    (by decide) (by decide) (by decide)

/-! ## Claim C2 -/

/-- C2: `handle_switch` answers `PeerMigrating` when the task registered
under `switch_arg.meta` is a migrating (source-role) task; when it is an
importing task not yet at `Blocking`, the importing task's `NotReady` is
surfaced as `SwitchError::NotReady`; and when no task is registered under
`switch_arg.meta` (or its cluster), it answers `TaskNotFound`. -/
theorem C2_handle_switch (m : manager.MigrationMap) (arg : proto.SwitchArg)
    (sub_cmd : proto.MgrSubCmd) :
    (∀ mig : proto.RedisScanMigratingTask,
        manager.tmGet m.task_map arg.meta.cluster_name arg.meta
          = some { task := .inl mig } →
        m.handle_switch arg sub_cmd = .error .PeerMigrating) ∧
    (∀ imp : proto.RedisScanImportingTask,
        manager.tmGet m.task_map arg.meta.cluster_name arg.meta
          = some { task := .inr imp } →
        (imp.state = .PreCheck ∨ imp.state = .PreBlocking) →
        m.handle_switch arg sub_cmd = .error .NotReady) ∧
    (manager.tmGet m.task_map arg.meta.cluster_name arg.meta = Option.none →
        m.handle_switch arg sub_cmd = .error .TaskNotFound) := by
  refine ⟨?_, ?_, ?_⟩
  · intro mig hmig
    unfold manager.tmGet at hmig
    rcases Option.bind_eq_some.mp hmig with ⟨tasks, hg, hi⟩
    unfold manager.MigrationMap.handle_switch
    simp only [hg, hi]
  · intro imp himp hstate
    unfold manager.tmGet at himp
    rcases Option.bind_eq_some.mp himp with ⟨tasks, hg, hi⟩
    unfold manager.MigrationMap.handle_switch
    simp only [hg, hi]
    rcases hstate with h | h <;>
      simp [proto.RedisScanImportingTask.handle_switch, h]
  · intro hnone
    unfold manager.tmGet at hnone
    unfold manager.MigrationMap.handle_switch
    cases hg : mapGet m.task_map arg.meta.cluster_name with
    | none => simp only [hg]
    | some tasks =>
      rw [hg, Option.some_bind] at hnone
      simp only [hg, hnone]

/-! ## Claim C4 -/

/-- C4: `send` on a map whose `empty` flag is set answers `SlotNotFound`,
carrying the (logged) task back for the non-migration route; and a command
task with no key whose cluster is present in the task map gets `MissingKey`
after an error response is set on the task. -/
theorem C4_send_fast_path_and_missing_key (m : manager.MigrationMap)
    (cmd : proto.CmdTask) :
    (m.empty = true →
      m.send cmd
        = (.error (.SlotNotFound
            { task := cmd.log_event .SentToMigrationBackend, hint := .NotBlocking }),
           [])) ∧
    (∀ tasks, m.empty = false →
      mapGet m.task_map cmd.cluster_name = some tasks →
      cmd.get_slot = Option.none →
      m.send cmd
        = (.error .MissingKey,
           [.setResp (cmd.log_event .SentToMigrationBackend)
              (proto.Resp.Error "missing key")])) := by
  constructor
  · intro he
    unfold manager.MigrationMap.send
    simp [he]
  · intro tasks he hct hslot
    unfold manager.MigrationMap.send manager.send_helper
    have h1 : (cmd.log_event .SentToMigrationBackend).get_cluster_name
        = cmd.cluster_name := rfl
    have h2 : (cmd.log_event .SentToMigrationBackend).get_slot = cmd.get_slot := rfl
    simp [he, h1, h2, hct, hslot]

/-! ## Claim C10 -/

/-- The `send_sync_task` loop skips every entry when no migrating-role
task of the list contains the slot (importing entries are never
considered). -/
theorem manager.sendSyncLoop_eq_none (cmd : proto.CmdTask) (slot : Nat)
    (l : List (proto.MigrationTaskMeta × manager.MgrTask))
    (h : ∀ p ∈ l, ∀ mig : proto.RedisScanMigratingTask,
        p.2.task = .inl mig → mig.contains_slot slot = false) :
    manager.sendSyncLoop cmd slot l = Option.none := by
  induction l with
  | nil => rfl
  | cons p rest ih =>
    obtain ⟨mt, mgr⟩ := p
    have ihr := ih (fun q hq => h q (List.mem_cons_of_mem _ hq))
    cases htask : mgr.task with
    | inl mig =>
      have hc := h (mt, mgr) (List.mem_cons_self _ _) mig htask
      simp [manager.sendSyncLoop, htask, hc, ihr]
    | inr imp =>
      simp [manager.sendSyncLoop, htask, ihr]

/-- C10: `send_sync_task` delegates only to migrating-role tasks: a command
task whose slot is contained in no migrating task's range of its cluster
(in particular when only importing-role tasks contain the slot) gets
`SlotNotFound` back rather than being delegated. -/
theorem C10_send_sync_task_ignores_importing (m : manager.MigrationMap)
    (cmd : proto.CmdTask) (slot : Nat)
    (hslot : cmd.get_slot = some slot)
    (hmig : ∀ tasks, mapGet m.task_map cmd.cluster_name = some tasks →
        ∀ p ∈ tasks, ∀ mig : proto.RedisScanMigratingTask,
          p.2.task = .inl mig → mig.contains_slot slot = false) :
    m.send_sync_task cmd
      = (.error (.SlotNotFound
          { task := cmd.log_event .SentToMigrationBackend, hint := .NotBlocking }),
         []) := by
  unfold manager.MigrationMap.send_sync_task
  by_cases he : m.empty
  · simp [he]
  · have h1 : (cmd.log_event .SentToMigrationBackend).get_cluster_name
        = cmd.cluster_name := rfl
    have h2 : (cmd.log_event .SentToMigrationBackend).get_slot = cmd.get_slot := rfl
    cases hct : mapGet m.task_map cmd.cluster_name with
    | none => simp [he, h1, hct]
    | some tasks =>
      have hloop := manager.sendSyncLoop_eq_none
        (cmd.log_event .SentToMigrationBackend) slot tasks (hmig tasks hct)
      simp [he, h1, h2, hct, hslot, hloop]

/-! ## Claim C9 -/

/-- The first pass of `update_from_old_task_map` only ever stores non-empty
per-cluster task maps. -/
theorem manager.firstPassStep_nonempty (old : manager.TaskMap) (acc : manager.TaskMap)
    (x : proto.ClusterName × proto.SlotRange)
    (h : ∀ p ∈ acc, p.2 ≠ []) :
    ∀ p ∈ manager.firstPassStep old acc x, p.2 ≠ [] := by
  intro p hp
  unfold manager.firstPassStep at hp
  cases htag : x.2.tag <;> simp only [htag] at hp
  case Migrating meta =>
    cases hl : manager.tmGet old x.1 { cluster_name := x.1, slot_range := x.2 } <;>
      simp only [hl] at hp
    case none => exact h p hp
    case some t =>
      unfold manager.tmInsert at hp
      rcases mem_mapInsert _ _ _ _ hp with h1 | h1
      · rw [h1]
        exact mapInsert_ne_nil _ _ _
      · exact h p h1
  case Importing meta =>
    cases hl : manager.tmGet old x.1 { cluster_name := x.1, slot_range := x.2 } <;>
      simp only [hl] at hp
    case none => exact h p hp
    case some t =>
      unfold manager.tmInsert at hp
      rcases mem_mapInsert _ _ _ _ hp with h1 | h1
      · rw [h1]
        exact mapInsert_ne_nil _ _ _
      · exact h p h1
  case none => exact h p hp

/-- The second pass of `update_from_old_task_map` only ever stores
non-empty per-cluster task maps. -/
theorem manager.secondPassStep_nonempty (st : manager.TaskMap × List manager.NewTask)
    (x : proto.ClusterName × proto.SlotRange)
    (h : ∀ p ∈ st.1, p.2 ≠ []) :
    ∀ p ∈ (manager.secondPassStep st x).1, p.2 ≠ [] := by
  intro p hp
  unfold manager.secondPassStep at hp
  cases htag : x.2.tag <;> simp only [htag] at hp
  case Migrating meta =>
    by_cases hc : ((mapGet st.1 x.1).map
        (fun tasks => mapContainsKey tasks { cluster_name := x.1, slot_range := x.2 }))
          = some true
    · simp only [if_pos hc] at hp
      exact h p hp
    · simp only [if_neg hc] at hp
      unfold manager.tmInsert at hp
      rcases mem_mapInsert _ _ _ _ hp with h1 | h1
      · rw [h1]
        exact mapInsert_ne_nil _ _ _
      · exact h p h1
  case Importing meta =>
    by_cases hc : ((mapGet st.1 x.1).map
        (fun tasks => mapContainsKey tasks { cluster_name := x.1, slot_range := x.2 }))
          = some true
    · simp only [if_pos hc] at hp
      exact h p hp
    · simp only [if_neg hc] at hp
      unfold manager.tmInsert at hp
      rcases mem_mapInsert _ _ _ _ hp with h1 | h1
      · rw [h1]
        exact mapInsert_ne_nil _ _ _
      · exact h p h1
  case none => exact h p hp

/-- C9: `MigrationMap::empty()` and every map produced by
`update_from_old_task_map` satisfy: the `empty` flag is set exactly when
the task map has no clusters; every cluster present maps to a non-empty
task set; hence the fast path of `send` fires only when no migration task
exists at all (every lookup is `none`). -/
theorem C9_migration_map_invariant :
    (manager.MigrationMap.mkEmpty.empty = true ∧
     manager.MigrationMap.mkEmpty.task_map = []) ∧
    (∀ (old : manager.MigrationMap) (m : manager.ProxyClusterMap),
      ((old.update_from_old_task_map m).1.empty = true ↔
        (old.update_from_old_task_map m).1.task_map = []) ∧
      (∀ p ∈ (old.update_from_old_task_map m).1.task_map, p.2 ≠ []) ∧
      ((old.update_from_old_task_map m).1.empty = true →
        ∀ c mt, manager.tmGet (old.update_from_old_task_map m).1.task_map c mt
          = Option.none)) := by
  refine ⟨⟨rfl, rfl⟩, ?_⟩
  intro old m
  have hmap : (old.update_from_old_task_map m).1.task_map
      = (manager.secondPass (manager.firstPass old.task_map m) m).1 := rfl
  have hflag : (old.update_from_old_task_map m).1.empty
      = (manager.secondPass (manager.firstPass old.task_map m) m).1.isEmpty := rfl
  have hiff : (old.update_from_old_task_map m).1.empty = true ↔
      (old.update_from_old_task_map m).1.task_map = [] := by
    rw [hmap, hflag]
    exact List.isEmpty_iff
  have hfp : ∀ p ∈ manager.firstPass old.task_map m, p.2 ≠ [] := by
    rw [manager.firstPass_eq_flat]
    exact foldl_pres _ (fun s => ∀ p ∈ s, p.2 ≠ []) _
      (fun s x _ hx => manager.firstPassStep_nonempty old.task_map s x hx) [] (by simp)
  have hsp : ∀ p ∈ (old.update_from_old_task_map m).1.task_map, p.2 ≠ [] := by
    rw [hmap, manager.secondPass_eq_flat]
    exact foldl_pres _ (fun st => ∀ p ∈ st.1, p.2 ≠ []) _
      (fun s x _ hx => manager.secondPassStep_nonempty s x hx)
      (manager.firstPass old.task_map m, ([] : List manager.NewTask)) hfp
  refine ⟨hiff, hsp, ?_⟩
  intro he c mt
  rw [hiff.mp he]
  rfl

/-! ## Claim C1: step lemmas -/

theorem manager.firstPassStep_get_other (old acc : manager.TaskMap)
    (x : proto.ClusterName × proto.SlotRange) (c : proto.ClusterName)
    (mt : proto.MigrationTaskMeta)
    (h : ¬(c = x.1 ∧ mt = { cluster_name := x.1, slot_range := x.2 })) :
    manager.tmGet (manager.firstPassStep old acc x) c mt
      = manager.tmGet acc c mt := by
  unfold manager.firstPassStep
  cases htag : x.2.tag
  case Migrating meta =>
    cases hl : manager.tmGet old x.1 { cluster_name := x.1, slot_range := x.2 }
    case none => simp only [hl]
    case some t =>
      simp only [hl]
      exact manager.tmGet_tmInsert_other _ _ _ _ _ _ h
  case Importing meta =>
    cases hl : manager.tmGet old x.1 { cluster_name := x.1, slot_range := x.2 }
    case none => simp only [hl]
    case some t =>
      simp only [hl]
      exact manager.tmGet_tmInsert_other _ _ _ _ _ _ h
  case none => rfl

theorem manager.firstPassStep_get_self (old acc : manager.TaskMap)
    (x : proto.ClusterName × proto.SlotRange) (rec : manager.MgrTask)
    (htag : x.2.tag ≠ proto.SlotRangeTag.none)
    (hold : manager.tmGet old x.1 { cluster_name := x.1, slot_range := x.2 }
      = some rec) :
    manager.tmGet (manager.firstPassStep old acc x) x.1
        { cluster_name := x.1, slot_range := x.2 } = some rec := by
  unfold manager.firstPassStep
  cases h : x.2.tag
  case Migrating meta =>
    simp only [hold]
    exact manager.tmGet_tmInsert_self _ _ _ _
  case Importing meta =>
    simp only [hold]
    exact manager.tmGet_tmInsert_self _ _ _ _
  case none => exact absurd h htag

theorem manager.firstPassStep_of_old_none (old acc : manager.TaskMap)
    (x : proto.ClusterName × proto.SlotRange)
    (hold : manager.tmGet old x.1 { cluster_name := x.1, slot_range := x.2 }
      = Option.none) :
    manager.firstPassStep old acc x = acc := by
  unfold manager.firstPassStep
  cases htag : x.2.tag
  case Migrating meta => simp only [hold]
  case Importing meta => simp only [hold]
  case none => rfl

theorem manager.secondPassStep_get_other (st : manager.TaskMap × List manager.NewTask)
    (x : proto.ClusterName × proto.SlotRange) (c : proto.ClusterName)
    (mt : proto.MigrationTaskMeta)
    (h : ¬(c = x.1 ∧ mt = { cluster_name := x.1, slot_range := x.2 })) :
    manager.tmGet (manager.secondPassStep st x).1 c mt
      = manager.tmGet st.1 c mt := by
  unfold manager.secondPassStep
  cases htag : x.2.tag
  case Migrating meta =>
    by_cases hc : ((mapGet st.1 x.1).map
        (fun tasks => mapContainsKey tasks { cluster_name := x.1, slot_range := x.2 }))
          = some true
    · simp only [if_pos hc]
    · simp only [if_neg hc]
      exact manager.tmGet_tmInsert_other _ _ _ _ _ _ h
  case Importing meta =>
    by_cases hc : ((mapGet st.1 x.1).map
        (fun tasks => mapContainsKey tasks { cluster_name := x.1, slot_range := x.2 }))
          = some true
    · simp only [if_pos hc]
    · simp only [if_neg hc]
      exact manager.tmGet_tmInsert_other _ _ _ _ _ _ h
  case none => rfl

theorem manager.secondPassStep_tasks_shape (st : manager.TaskMap × List manager.NewTask)
    (x : proto.ClusterName × proto.SlotRange) :
    (manager.secondPassStep st x).2 = st.2 ∨
    ∃ nt : manager.NewTask, (manager.secondPassStep st x).2 = st.2 ++ [nt] ∧
      nt.task_meta = { cluster_name := x.1, slot_range := x.2 } := by
  unfold manager.secondPassStep
  cases htag : x.2.tag
  case Migrating meta =>
    by_cases hc : ((mapGet st.1 x.1).map
        (fun tasks => mapContainsKey tasks { cluster_name := x.1, slot_range := x.2 }))
          = some true
    · simp only [if_pos hc]
      exact Or.inl trivial
    · simp only [if_neg hc]
      exact Or.inr ⟨_, rfl, rfl⟩
  case Importing meta =>
    by_cases hc : ((mapGet st.1 x.1).map
        (fun tasks => mapContainsKey tasks { cluster_name := x.1, slot_range := x.2 }))
          = some true
    · simp only [if_pos hc]
      exact Or.inl trivial
    · simp only [if_neg hc]
      exact Or.inr ⟨_, rfl, rfl⟩
  case none => exact Or.inl rfl

theorem manager.secondPassStep_of_contained (st : manager.TaskMap × List manager.NewTask)
    (x : proto.ClusterName × proto.SlotRange) (rec : manager.MgrTask)
    (h : manager.tmGet st.1 x.1 { cluster_name := x.1, slot_range := x.2 } = some rec) :
    manager.secondPassStep st x = st := by
  rcases Option.bind_eq_some.mp h with ⟨ts, hg, hi⟩
  have hc : ((mapGet st.1 x.1).map
      (fun tasks => mapContainsKey tasks { cluster_name := x.1, slot_range := x.2 }))
        = some true := by
    rw [hg]
    simp [mapContainsKey, hi]
  unfold manager.secondPassStep
  cases htag : x.2.tag
  case Migrating meta => simp only [if_pos hc]
  case Importing meta => simp only [if_pos hc]
  case none => rfl

theorem manager.secondPassStep_fresh_migrating
    (st : manager.TaskMap × List manager.NewTask)
    (c : proto.ClusterName) (sr : proto.SlotRange) (meta : proto.MigrationMeta)
    (htag : sr.tag = proto.SlotRangeTag.Migrating meta)
    (hnone : manager.tmGet st.1 c { cluster_name := c, slot_range := sr }
      = Option.none) :
    (manager.secondPassStep st (c, sr)).1
      = manager.tmInsert st.1 c { cluster_name := c, slot_range := sr }
          { task := .inl { cluster_name := c, slot_range := sr, meta := meta,
                           state := .PreCheck } } ∧
    (manager.secondPassStep st (c, sr)).2
      = st.2 ++ [{ cluster_name := c, epoch := meta.epoch,
                   range_list := sr.to_range_list,
                   task := .inl { cluster_name := c, slot_range := sr, meta := meta,
                                  state := .PreCheck } }] := by
  have hc : ¬ ((mapGet st.1 c).map
      (fun tasks => mapContainsKey tasks { cluster_name := c, slot_range := sr }))
        = some true := by
    unfold manager.tmGet at hnone
    cases hg : mapGet st.1 c with
    | none => simp [hg]
    | some ts =>
      rw [hg, Option.some_bind] at hnone
      simp [hg, mapContainsKey, hnone]
  unfold manager.secondPassStep
  simp only [htag, if_neg hc]
  exact ⟨trivial, trivial⟩

theorem manager.secondPassStep_fresh_importing
    (st : manager.TaskMap × List manager.NewTask)
    (c : proto.ClusterName) (sr : proto.SlotRange) (meta : proto.MigrationMeta)
    (htag : sr.tag = proto.SlotRangeTag.Importing meta)
    (hnone : manager.tmGet st.1 c { cluster_name := c, slot_range := sr }
      = Option.none) :
    (manager.secondPassStep st (c, sr)).1
      = manager.tmInsert st.1 c { cluster_name := c, slot_range := sr }
          { task := .inr { meta := meta, slot_range := sr, state := .PreCheck } } ∧
    (manager.secondPassStep st (c, sr)).2
      = st.2 ++ [{ cluster_name := c, epoch := meta.epoch,
                   range_list := sr.to_range_list,
                   task := .inr { meta := meta, slot_range := sr,
                                  state := .PreCheck } }] := by
  have hc : ¬ ((mapGet st.1 c).map
      (fun tasks => mapContainsKey tasks { cluster_name := c, slot_range := sr }))
        = some true := by
    unfold manager.tmGet at hnone
    cases hg : mapGet st.1 c with
    | none => simp [hg]
    | some ts =>
      rw [hg, Option.some_bind] at hnone
      simp [hg, mapContainsKey, hnone]
  unfold manager.secondPassStep
  simp only [htag, if_neg hc]
  exact ⟨trivial, trivial⟩


/-! ## Claim C1: fold lemmas -/

theorem manager.firstPass_fold_stable (old : manager.TaskMap)
    (l : List (proto.ClusterName × proto.SlotRange)) (c : proto.ClusterName)
    (mt : proto.MigrationTaskMeta) (rec : manager.MgrTask)
    (hold : manager.tmGet old c mt = some rec) (acc : manager.TaskMap)
    (hacc : manager.tmGet acc c mt = some rec) :
    manager.tmGet (l.foldl (manager.firstPassStep old) acc) c mt = some rec := by
  refine foldl_pres _ (fun s => manager.tmGet s c mt = some rec) l ?_ acc hacc
  intro s x _ hs
  obtain ⟨x1, x2⟩ := x
  by_cases hk : c = x1 ∧ mt = { cluster_name := x1, slot_range := x2 }
  · obtain ⟨hc, hmt⟩ := hk
    subst hc
    subst hmt
    cases htag : x2.tag with
    | none =>
      unfold manager.firstPassStep
      simp only [htag]
      exact hs
    | Migrating meta =>
      exact manager.firstPassStep_get_self old s (c, x2) rec (by simp [htag]) hold
    | Importing meta =>
      exact manager.firstPassStep_get_self old s (c, x2) rec (by simp [htag]) hold
  · rw [manager.firstPassStep_get_other old s (x1, x2) c mt hk]
    exact hs

theorem manager.firstPass_fold_frozen (old : manager.TaskMap)
    (l : List (proto.ClusterName × proto.SlotRange)) (c : proto.ClusterName)
    (mt : proto.MigrationTaskMeta)
    (hold : manager.tmGet old c mt = Option.none) (acc : manager.TaskMap) :
    manager.tmGet (l.foldl (manager.firstPassStep old) acc) c mt
      = manager.tmGet acc c mt := by
  induction l generalizing acc with
  | nil => rfl
  | cons x rest ih =>
    rw [List.foldl_cons, ih]
    obtain ⟨x1, x2⟩ := x
    by_cases hk : c = x1 ∧ mt = { cluster_name := x1, slot_range := x2 }
    · obtain ⟨hc, hmt⟩ := hk
      subst hc
      subst hmt
      rw [manager.firstPassStep_of_old_none old acc (c, x2) hold]
    · exact manager.firstPassStep_get_other old acc (x1, x2) c mt hk

theorem manager.firstPass_fold_other (old : manager.TaskMap)
    (l : List (proto.ClusterName × proto.SlotRange)) (c : proto.ClusterName)
    (mt : proto.MigrationTaskMeta) (acc : manager.TaskMap)
    (h : ∀ x ∈ l, ¬(c = x.1 ∧ mt = { cluster_name := x.1, slot_range := x.2 })) :
    manager.tmGet (l.foldl (manager.firstPassStep old) acc) c mt
      = manager.tmGet acc c mt := by
  induction l generalizing acc with
  | nil => rfl
  | cons x rest ih =>
    rw [List.foldl_cons, ih _ (fun y hy => h y (List.mem_cons_of_mem _ hy))]
    exact manager.firstPassStep_get_other old acc x c mt (h x (List.mem_cons_self _ _))

theorem manager.secondPass_fold_other (l : List (proto.ClusterName × proto.SlotRange))
    (c : proto.ClusterName) (mt : proto.MigrationTaskMeta)
    (st : manager.TaskMap × List manager.NewTask)
    (h : ∀ x ∈ l, ¬(c = x.1 ∧ mt = { cluster_name := x.1, slot_range := x.2 })) :
    manager.tmGet (l.foldl manager.secondPassStep st).1 c mt
      = manager.tmGet st.1 c mt := by
  induction l generalizing st with
  | nil => rfl
  | cons x rest ih =>
    rw [List.foldl_cons, ih _ (fun y hy => h y (List.mem_cons_of_mem _ hy))]
    exact manager.secondPassStep_get_other st x c mt (h x (List.mem_cons_self _ _))

theorem manager.secondPassStep_keep (s : manager.TaskMap × List manager.NewTask)
    (x : proto.ClusterName × proto.SlotRange) (c : proto.ClusterName)
    (sr : proto.SlotRange) (rec : manager.MgrTask) (nt₀ : manager.NewTask)
    (h1 : manager.tmGet s.1 c { cluster_name := c, slot_range := sr } = some rec)
    (h2 : nt₀ ∈ s.2) :
    manager.tmGet (manager.secondPassStep s x).1 c
        { cluster_name := c, slot_range := sr } = some rec ∧
    nt₀ ∈ (manager.secondPassStep s x).2 := by
  obtain ⟨x1, x2⟩ := x
  by_cases hk : c = x1 ∧
      ({ cluster_name := c, slot_range := sr } : proto.MigrationTaskMeta)
        = { cluster_name := x1, slot_range := x2 }
  · obtain ⟨hc, hmt⟩ := hk
    injection hmt with i1 i2
    subst hc
    subst i2
    rw [manager.secondPassStep_of_contained s (c, sr) rec h1]
    exact ⟨h1, h2⟩
  · refine ⟨?_, ?_⟩
    · rw [manager.secondPassStep_get_other s (x1, x2) c _ hk]
      exact h1
    · rcases manager.secondPassStep_tasks_shape s (x1, x2) with hsh | ⟨nt', hsh, _⟩
      · rw [hsh]
        exact h2
      · rw [hsh]
        exact List.mem_append.mpr (Or.inl h2)

theorem manager.secondPass_fold_keep (l : List (proto.ClusterName × proto.SlotRange))
    (c : proto.ClusterName) (sr : proto.SlotRange) (rec : manager.MgrTask)
    (nt₀ : manager.NewTask) (st : manager.TaskMap × List manager.NewTask)
    (hget : manager.tmGet st.1 c { cluster_name := c, slot_range := sr } = some rec)
    (hmem : nt₀ ∈ st.2) :
    manager.tmGet (l.foldl manager.secondPassStep st).1 c
        { cluster_name := c, slot_range := sr } = some rec ∧
    nt₀ ∈ (l.foldl manager.secondPassStep st).2 := by
  refine foldl_pres _
    (fun s => manager.tmGet s.1 c { cluster_name := c, slot_range := sr } = some rec ∧
      nt₀ ∈ s.2) l ?_ st ⟨hget, hmem⟩
  intro s x _ hs
  exact manager.secondPassStep_keep s x c sr rec nt₀ hs.1 hs.2

theorem manager.secondPass_fold_contained
    (l : List (proto.ClusterName × proto.SlotRange)) (c : proto.ClusterName)
    (sr : proto.SlotRange) (rec : manager.MgrTask)
    (st : manager.TaskMap × List manager.NewTask)
    (hget : manager.tmGet st.1 c { cluster_name := c, slot_range := sr } = some rec)
    (hnts : ∀ nt ∈ st.2, nt.task_meta ≠ { cluster_name := c, slot_range := sr }) :
    manager.tmGet (l.foldl manager.secondPassStep st).1 c
        { cluster_name := c, slot_range := sr } = some rec ∧
    ∀ nt ∈ (l.foldl manager.secondPassStep st).2,
      nt.task_meta ≠ { cluster_name := c, slot_range := sr } := by
  refine foldl_pres _
    (fun s => manager.tmGet s.1 c { cluster_name := c, slot_range := sr } = some rec ∧
      ∀ nt ∈ s.2, nt.task_meta ≠ { cluster_name := c, slot_range := sr }) l ?_ st
    ⟨hget, hnts⟩
  intro s x _ hs
  obtain ⟨hs1, hs2⟩ := hs
  obtain ⟨x1, x2⟩ := x
  by_cases hk : c = x1 ∧
      ({ cluster_name := c, slot_range := sr } : proto.MigrationTaskMeta)
        = { cluster_name := x1, slot_range := x2 }
  · obtain ⟨hc, hmt⟩ := hk
    injection hmt with i1 i2
    subst hc
    subst i2
    rw [manager.secondPassStep_of_contained s (c, sr) rec hs1]
    exact ⟨hs1, hs2⟩
  · refine ⟨?_, ?_⟩
    · rw [manager.secondPassStep_get_other s (x1, x2) c _ hk]
      exact hs1
    · intro nt hnt
      rcases manager.secondPassStep_tasks_shape s (x1, x2) with hsh | ⟨nt', hsh, hmeta⟩
      · rw [hsh] at hnt
        exact hs2 nt hnt
      · rw [hsh] at hnt
        rcases List.mem_append.mp hnt with hIn | hIn
        · exact hs2 nt hIn
        · have hnt2 : nt = nt' := by simpa using hIn
          rw [hnt2, hmeta]
          intro hEq
          apply hk
          refine ⟨?_, hEq.symm⟩
          injection hEq with i1 i2
          exact i1.symm

theorem manager.secondPass_fold_fresh
    (l : List (proto.ClusterName × proto.SlotRange)) (c : proto.ClusterName)
    (sr : proto.SlotRange) (freshRec : manager.MgrTask) (freshNt : manager.NewTask)
    (hstep : ∀ s : manager.TaskMap × List manager.NewTask,
      manager.tmGet s.1 c { cluster_name := c, slot_range := sr } = Option.none →
      (manager.secondPassStep s (c, sr)).1
        = manager.tmInsert s.1 c { cluster_name := c, slot_range := sr } freshRec ∧
      (manager.secondPassStep s (c, sr)).2 = s.2 ++ [freshNt])
    (st : manager.TaskMap × List manager.NewTask)
    (hI : manager.tmGet st.1 c { cluster_name := c, slot_range := sr } = Option.none ∨
      (manager.tmGet st.1 c { cluster_name := c, slot_range := sr } = some freshRec ∧
        freshNt ∈ st.2)) :
    manager.tmGet (l.foldl manager.secondPassStep st).1 c
        { cluster_name := c, slot_range := sr } = Option.none ∨
    (manager.tmGet (l.foldl manager.secondPassStep st).1 c
        { cluster_name := c, slot_range := sr } = some freshRec ∧
      freshNt ∈ (l.foldl manager.secondPassStep st).2) := by
  refine foldl_pres _
    (fun s => manager.tmGet s.1 c { cluster_name := c, slot_range := sr } = Option.none ∨
      (manager.tmGet s.1 c { cluster_name := c, slot_range := sr } = some freshRec ∧
        freshNt ∈ s.2)) l ?_ st hI
  intro s x _ hs
  rcases hs with hnone | ⟨hsome, hmem⟩
  · obtain ⟨x1, x2⟩ := x
    by_cases hk : c = x1 ∧
        ({ cluster_name := c, slot_range := sr } : proto.MigrationTaskMeta)
          = { cluster_name := x1, slot_range := x2 }
    · obtain ⟨hc, hmt⟩ := hk
      injection hmt with i1 i2
      subst hc
      subst i2
      obtain ⟨hA, hB⟩ := hstep s hnone
      right
      constructor
      · rw [hA]
        exact manager.tmGet_tmInsert_self _ _ _ _
      · rw [hB]
        exact List.mem_append.mpr (Or.inr (List.mem_singleton.mpr rfl))
    · left
      rw [manager.secondPassStep_get_other s (x1, x2) c _ hk]
      exact hnone
  · exact Or.inr (manager.secondPassStep_keep s x c sr freshRec freshNt hsome hmem)

/-! ## Claim C1 -/

/-- C1: `update_from_old_task_map` (i) preserves exactly the tasks whose
`MigrationTaskMeta` (cluster name plus tagged slot range, the tag carrying
the planning epoch) already exists in the old task map — the same task
record is reused and no `NewTask` entry is emitted for it; (ii) every
`Migrating`-tagged range of the new map with no identical old entry gets a
fresh migrating task, registered and returned in the `NewTask` list;
(iii) likewise for `Importing`-tagged ranges; and (iv) every old task
whose meta is absent from the new map is absent from the returned map. -/
theorem C1_update_from_old_task_map (old : manager.MigrationMap)
    (m : manager.ProxyClusterMap) :
    (∀ (c : proto.ClusterName) (sr : proto.SlotRange) (rec : manager.MgrTask),
      (c, sr) ∈ manager.flatRanges m →
      sr.tag ≠ proto.SlotRangeTag.none →
      manager.tmGet old.task_map c { cluster_name := c, slot_range := sr }
        = some rec →
      manager.tmGet (old.update_from_old_task_map m).1.task_map c
          { cluster_name := c, slot_range := sr } = some rec ∧
      (∀ nt ∈ (old.update_from_old_task_map m).2,
        nt.task_meta ≠ { cluster_name := c, slot_range := sr })) ∧
    (∀ (c : proto.ClusterName) (sr : proto.SlotRange) (meta : proto.MigrationMeta),
      (c, sr) ∈ manager.flatRanges m →
      sr.tag = proto.SlotRangeTag.Migrating meta →
      manager.tmGet old.task_map c { cluster_name := c, slot_range := sr }
        = Option.none →
      manager.tmGet (old.update_from_old_task_map m).1.task_map c
          { cluster_name := c, slot_range := sr }
        = some { task := .inl { cluster_name := c, slot_range := sr, meta := meta,
                                state := .PreCheck } } ∧
      ({ cluster_name := c, epoch := meta.epoch, range_list := sr.to_range_list,
         task := .inl { cluster_name := c, slot_range := sr, meta := meta,
                        state := .PreCheck } } : manager.NewTask)
        ∈ (old.update_from_old_task_map m).2) ∧
    (∀ (c : proto.ClusterName) (sr : proto.SlotRange) (meta : proto.MigrationMeta),
      (c, sr) ∈ manager.flatRanges m →
      sr.tag = proto.SlotRangeTag.Importing meta →
      manager.tmGet old.task_map c { cluster_name := c, slot_range := sr }
        = Option.none →
      manager.tmGet (old.update_from_old_task_map m).1.task_map c
          { cluster_name := c, slot_range := sr }
        = some { task := .inr { meta := meta, slot_range := sr,
                                state := .PreCheck } } ∧
      ({ cluster_name := c, epoch := meta.epoch, range_list := sr.to_range_list,
         task := .inr { meta := meta, slot_range := sr, state := .PreCheck } }
          : manager.NewTask)
        ∈ (old.update_from_old_task_map m).2) ∧
    (∀ (c : proto.ClusterName) (mt : proto.MigrationTaskMeta),
      (∀ sr : proto.SlotRange, (c, sr) ∈ manager.flatRanges m →
        mt ≠ { cluster_name := c, slot_range := sr }) →
      manager.tmGet (old.update_from_old_task_map m).1.task_map c mt
        = Option.none) := by
  have hmap : (old.update_from_old_task_map m).1.task_map
      = ((manager.flatRanges m).foldl manager.secondPassStep
          ((manager.flatRanges m).foldl (manager.firstPassStep old.task_map) [],
           [])).1 := by
    show (manager.secondPass (manager.firstPass old.task_map m) m).1 = _
    rw [manager.firstPass_eq_flat, manager.secondPass_eq_flat]
  have hnew : (old.update_from_old_task_map m).2
      = ((manager.flatRanges m).foldl manager.secondPassStep
          ((manager.flatRanges m).foldl (manager.firstPassStep old.task_map) [],
           [])).2 := by
    show (manager.secondPass (manager.firstPass old.task_map m) m).2 = _
    rw [manager.firstPass_eq_flat, manager.secondPass_eq_flat]
  refine ⟨?_, ?_, ?_, ?_⟩
  · -- (i) preserved tasks
    intro c sr rec hmem htag hold
    obtain ⟨l₁, l₂, hsplit⟩ := List.append_of_mem hmem
    have hm1 : manager.tmGet
        ((manager.flatRanges m).foldl (manager.firstPassStep old.task_map) [])
        c { cluster_name := c, slot_range := sr } = some rec := by
      rw [hsplit, List.foldl_append, List.foldl_cons]
      exact manager.firstPass_fold_stable old.task_map l₂ c _ rec hold _
        (manager.firstPassStep_get_self old.task_map _ (c, sr) rec htag hold)
    have h2 := manager.secondPass_fold_contained (manager.flatRanges m) c sr rec
      ((manager.flatRanges m).foldl (manager.firstPassStep old.task_map) [], [])
      hm1 (fun nt hnt => absurd hnt (List.not_mem_nil nt))
    rw [hmap, hnew]
    exact h2
  · -- (ii) fresh migrating tasks
    intro c sr meta hmem htag holdnone
    obtain ⟨l₁, l₂, hsplit⟩ := List.append_of_mem hmem
    have hm1 : manager.tmGet
        ((manager.flatRanges m).foldl (manager.firstPassStep old.task_map) [])
        c { cluster_name := c, slot_range := sr } = Option.none := by
      rw [manager.firstPass_fold_frozen old.task_map _ c _ holdnone []]
      rfl
    have hstep := fun (s : manager.TaskMap × List manager.NewTask)
        (hn : manager.tmGet s.1 c { cluster_name := c, slot_range := sr }
          = Option.none) =>
      manager.secondPassStep_fresh_migrating s c sr meta htag hn
    rw [hmap, hnew]
    rw [hsplit] at hm1 ⊢
    rw [List.foldl_append, List.foldl_cons]
    have hI1 := manager.secondPass_fold_fresh l₁ c sr
      { task := .inl { cluster_name := c, slot_range := sr, meta := meta,
                       state := .PreCheck } }
      { cluster_name := c, epoch := meta.epoch, range_list := sr.to_range_list,
        task := .inl { cluster_name := c, slot_range := sr, meta := meta,
                       state := .PreCheck } }
      hstep
      ((l₁ ++ (c, sr) :: l₂).foldl (manager.firstPassStep old.task_map) [], [])
      (Or.inl hm1)
    have hJ : manager.tmGet
        (manager.secondPassStep
          (l₁.foldl manager.secondPassStep
            ((l₁ ++ (c, sr) :: l₂).foldl (manager.firstPassStep old.task_map) [], []))
          (c, sr)).1 c { cluster_name := c, slot_range := sr }
        = some { task := .inl { cluster_name := c, slot_range := sr, meta := meta,
                                state := .PreCheck } } ∧
        ({ cluster_name := c, epoch := meta.epoch, range_list := sr.to_range_list,
           task := .inl { cluster_name := c, slot_range := sr, meta := meta,
                          state := .PreCheck } } : manager.NewTask)
          ∈ (manager.secondPassStep
              (l₁.foldl manager.secondPassStep
                ((l₁ ++ (c, sr) :: l₂).foldl (manager.firstPassStep old.task_map) [],
                 []))
              (c, sr)).2 := by
      rcases hI1 with hn | ⟨hv, hmemJ⟩
      · obtain ⟨hA, hB⟩ := hstep _ hn
        refine ⟨?_, ?_⟩
        · rw [hA]
          exact manager.tmGet_tmInsert_self _ _ _ _
        · rw [hB]
          exact List.mem_append.mpr (Or.inr (List.mem_singleton.mpr rfl))
      · exact manager.secondPassStep_keep _ (c, sr) c sr _ _ hv hmemJ
    exact manager.secondPass_fold_keep l₂ c sr _ _ _ hJ.1 hJ.2
  · -- (iii) fresh importing tasks
    intro c sr meta hmem htag holdnone
    obtain ⟨l₁, l₂, hsplit⟩ := List.append_of_mem hmem
    have hm1 : manager.tmGet
        ((manager.flatRanges m).foldl (manager.firstPassStep old.task_map) [])
        c { cluster_name := c, slot_range := sr } = Option.none := by
      rw [manager.firstPass_fold_frozen old.task_map _ c _ holdnone []]
      rfl
    have hstep := fun (s : manager.TaskMap × List manager.NewTask)
        (hn : manager.tmGet s.1 c { cluster_name := c, slot_range := sr }
          = Option.none) =>
      manager.secondPassStep_fresh_importing s c sr meta htag hn
    rw [hmap, hnew]
    rw [hsplit] at hm1 ⊢
    rw [List.foldl_append, List.foldl_cons]
    have hI1 := manager.secondPass_fold_fresh l₁ c sr
      { task := .inr { meta := meta, slot_range := sr, state := .PreCheck } }
      { cluster_name := c, epoch := meta.epoch, range_list := sr.to_range_list,
        task := .inr { meta := meta, slot_range := sr, state := .PreCheck } }
      hstep
      ((l₁ ++ (c, sr) :: l₂).foldl (manager.firstPassStep old.task_map) [], [])
      (Or.inl hm1)
    have hJ : manager.tmGet
        (manager.secondPassStep
          (l₁.foldl manager.secondPassStep
            ((l₁ ++ (c, sr) :: l₂).foldl (manager.firstPassStep old.task_map) [], []))
          (c, sr)).1 c { cluster_name := c, slot_range := sr }
        = some { task := .inr { meta := meta, slot_range := sr,
                                state := .PreCheck } } ∧
        ({ cluster_name := c, epoch := meta.epoch, range_list := sr.to_range_list,
           task := .inr { meta := meta, slot_range := sr, state := .PreCheck } }
            : manager.NewTask)
          ∈ (manager.secondPassStep
              (l₁.foldl manager.secondPassStep
                ((l₁ ++ (c, sr) :: l₂).foldl (manager.firstPassStep old.task_map) [],
                 []))
              (c, sr)).2 := by
      rcases hI1 with hn | ⟨hv, hmemJ⟩
      · obtain ⟨hA, hB⟩ := hstep _ hn
        refine ⟨?_, ?_⟩
        · rw [hA]
          exact manager.tmGet_tmInsert_self _ _ _ _
        · rw [hB]
          exact List.mem_append.mpr (Or.inr (List.mem_singleton.mpr rfl))
      · exact manager.secondPassStep_keep _ (c, sr) c sr _ _ hv hmemJ
    exact manager.secondPass_fold_keep l₂ c sr _ _ _ hJ.1 hJ.2
  · -- (iv) dropped tasks
    intro c mt h
    have hcond : ∀ x ∈ manager.flatRanges m,
        ¬(c = x.1 ∧ mt = { cluster_name := x.1, slot_range := x.2 }) := by
      intro x hx hk
      obtain ⟨x1, x2⟩ := x
      obtain ⟨hc, hmt⟩ := hk
      subst hc
      exact h x2 hx hmt
    have hm1 : manager.tmGet
        ((manager.flatRanges m).foldl (manager.firstPassStep old.task_map) [])
        c mt = Option.none := by
      rw [manager.firstPass_fold_other old.task_map _ c mt [] hcond]
      rfl
    rw [hmap]
    rw [manager.secondPass_fold_other _ c mt _ hcond]
    exact hm1

/-! ## Claim C6: decimal numerals -/

theorem decDigitChar_isDigit (d : Nat) (h : d < 10) :
    (decDigitChar d).isDigit = true := by
  interval_cases d <;> decide

theorem decDigitChar_val (d : Nat) (h : d < 10) :
    (decDigitChar d).toNat - '0'.toNat = d := by
  interval_cases d <;> decide

theorem decDigits_ne_nil (n : Nat) : decDigits n ≠ [] := by
  rw [decDigits]
  split
  · simp
  · simp

theorem decDigits_all_digit (n : Nat) :
    ∀ c ∈ decDigits n, c.isDigit = true := by
  induction n using Nat.strongRecOn with
  | _ n ih =>
    rw [decDigits]
    split
    case isTrue h =>
      intro c hc
      simp only [List.mem_singleton] at hc
      subst hc
      exact decDigitChar_isDigit n h
    case isFalse h =>
      intro c hc
      rcases List.mem_append.mp hc with h1 | h1
      · exact ih (n / 10) (Nat.div_lt_self (by omega) (by omega)) c h1
      · simp only [List.mem_singleton] at h1
        subst h1
        exact decDigitChar_isDigit (n % 10) (Nat.mod_lt _ (by omega))

theorem decValue_decDigits (n : Nat) : decValue (decDigits n) = n := by
  induction n using Nat.strongRecOn with
  | _ n ih =>
    rw [decDigits]
    split
    case isTrue h =>
      unfold decValue
      simpa using decDigitChar_val n h
    case isFalse h =>
      unfold decValue
      rw [List.foldl_append]
      have hrec := ih (n / 10) (Nat.div_lt_self (by omega) (by omega))
      unfold decValue at hrec
      rw [hrec]
      simp only [List.foldl_cons, List.foldl_nil]
      have hv := decDigitChar_val (n % 10) (Nat.mod_lt _ (by omega))
      simp at hv
      have h0 : '0'.toNat = 48 := rfl
      rw [h0]
      omega

theorem parseNat_natToString (n : Nat) : parseNat (natToString n) = some n := by
  unfold parseNat natToString
  split
  case isTrue h => rw [decValue_decDigits]
  case isFalse h =>
    exfalso
    apply h
    refine ⟨decDigits_ne_nil n, ?_⟩
    rw [List.all_eq_true]
    intro c hc
    exact decDigits_all_digit n c hc

/-! ## Claim C6: round trip -/

theorem replicator.parsePeers_encode (ps : List replicator.ReplPeer)
    (rest : List String) :
    replicator.parsePeers ps.length
        (ps.flatMap (fun p => [p.node_address, p.proxy_address]) ++ rest)
      = some (ps, rest) := by
  induction ps with
  | nil => rfl
  | cons p pr ih =>
    simp only [List.length_cons, List.flatMap_cons, List.cons_append,
      List.append_assoc, List.nil_append]
    simp only [replicator.parsePeers, ih, Option.map_some]
    rfl

theorem replicator.parseEntriesLoop_replicas (rs : List replicator.ReplicaMeta) :
    ∀ fuel,
      (rs.flatMap (fun replica =>
        ["replica", replica.db_name, replica.replica_node_address,
         natToString replica.masters.length]
        ++ replica.masters.flatMap (fun master =>
            [master.node_address, master.proxy_address]))).length ≤ fuel →
      replicator.parseEntriesLoop fuel
        (rs.flatMap (fun replica =>
          ["replica", replica.db_name, replica.replica_node_address,
           natToString replica.masters.length]
          ++ replica.masters.flatMap (fun master =>
              [master.node_address, master.proxy_address])))
        = some ([], rs) := by
  induction rs with
  | nil =>
    intro fuel _
    cases fuel <;> rfl
  | cons r rest ih =>
    intro fuel hlen
    simp only [List.flatMap_cons, List.cons_append, List.append_assoc,
      List.length_cons, List.length_append, List.nil_append] at hlen ⊢
    cases fuel with
    | zero => omega
    | succ f =>
      simp only [replicator.parseEntriesLoop, parseNat_natToString,
        replicator.parsePeers_encode]
      rw [if_neg (by decide : ¬ replicator.toUppercase "replica" = "MASTER")]
      rw [if_pos (by decide : replicator.toUppercase "replica" = "REPLICA")]
      have hrec := ih f (by simp only [List.cons_append, List.nil_append]; omega)
      simp only [List.cons_append, List.nil_append] at hrec
      rw [hrec]
      rfl

theorem replicator.parseEntriesLoop_encode (ms : List replicator.MasterMeta)
    (rs : List replicator.ReplicaMeta) :
    ∀ fuel,
      (ms.flatMap (fun master =>
        ["master", master.db_name, master.master_node_address,
         natToString master.replicas.length]
        ++ master.replicas.flatMap (fun replica =>
            [replica.node_address, replica.proxy_address]))
       ++ rs.flatMap (fun replica =>
        ["replica", replica.db_name, replica.replica_node_address,
         natToString replica.masters.length]
        ++ replica.masters.flatMap (fun master =>
            [master.node_address, master.proxy_address]))).length ≤ fuel →
      replicator.parseEntriesLoop fuel
        (ms.flatMap (fun master =>
          ["master", master.db_name, master.master_node_address,
           natToString master.replicas.length]
          ++ master.replicas.flatMap (fun replica =>
              [replica.node_address, replica.proxy_address]))
         ++ rs.flatMap (fun replica =>
          ["replica", replica.db_name, replica.replica_node_address,
           natToString replica.masters.length]
          ++ replica.masters.flatMap (fun master =>
              [master.node_address, master.proxy_address])))
        = some (ms, rs) := by
  induction ms with
  | nil =>
    intro fuel hlen
    simp only [List.flatMap_nil, List.nil_append] at hlen ⊢
    exact replicator.parseEntriesLoop_replicas rs fuel hlen
  | cons mr rest ih =>
    intro fuel hlen
    simp only [List.flatMap_cons, List.cons_append, List.append_assoc,
      List.length_cons, List.length_append, List.nil_append] at hlen ⊢
    cases fuel with
    | zero => omega
    | succ f =>
      simp only [replicator.parseEntriesLoop, parseNat_natToString,
        replicator.parsePeers_encode]
      rw [if_pos (by decide : replicator.toUppercase "master" = "MASTER")]
      have hrec := ih f
        (by simp only [List.cons_append, List.nil_append, List.length_append]; omega)
      simp only [List.cons_append, List.nil_append, List.append_assoc] at hrec
      rw [hrec]
      rfl

theorem replicator.bulkTokens_encode (args : List String) :
    replicator.bulkTokens ([proto.Resp.Bulk "UMCTL", proto.Resp.Bulk "SETREPL"]
      ++ args.map (fun s => proto.Resp.Bulk s)) = args := by
  unfold replicator.bulkTokens
  show (args.map (fun s => proto.Resp.Bulk s)).filterMap _ = args
  induction args with
  | nil => rfl
  | cons a l ih =>
    simp only [List.map_cons, List.filterMap_cons]
    rw [ih]

theorem replicator.from_arg_to_arg (f : replicator.DBMapFlags) :
    replicator.DBMapFlags.from_arg f.to_arg = f := by
  obtain ⟨force⟩ := f
  cases force <;> decide

/-- C6: parsing the RESP array formed by the two command tokens followed by
`encode_repl_meta(meta)` as bulk strings recovers a `ReplicatorMeta` equal
to the original in `epoch`, `flags`, `masters` and `replicas`: encoding
then decoding a `ReplicatorMeta` arg list is the identity. -/
theorem C6_repl_meta_roundtrip (meta : replicator.ReplicatorMeta) :
    replicator.parse_repl_meta (replicator.setReplResp meta) = .ok meta := by
  obtain ⟨epoch, flags, masters, replicas⟩ := meta
  unfold replicator.setReplResp
  simp only [replicator.parse_repl_meta]
  rw [replicator.bulkTokens_encode]
  unfold replicator.encode_repl_meta
  simp only [List.cons_append, List.nil_append, List.append_assoc]
  simp only [parseNat_natToString]
  have hentries := replicator.parseEntriesLoop_encode masters replicas _ (le_refl _)
  simp only [List.cons_append, List.nil_append] at hentries
  rw [hentries]
  simp only [replicator.from_arg_to_arg]

/-! ## Witnesses

Concrete instances (anonymous-constructor notation): the `MigrationMeta`
`⟨7, "p1", "n1", "p2", "n2"⟩` is the tuple `{epoch, src_proxy, src_node,
dst_proxy, dst_node}`; a `SlotRange` is `⟨range_list, tag⟩`; a
`MigrationTaskMeta` is `⟨cluster_name, slot_range⟩`.
-/

/-- Witness for C2 at a concrete migration map: a migrating task answers
`PeerMigrating`, an importing task before `Blocking` answers `NotReady`,
and an unknown meta answers `TaskNotFound`. -/
theorem C2_handle_switch_witness :
    (manager.MigrationMap.handle_switch
      ⟨false, [("c", [(⟨"c", ⟨[(0, 100)], .Migrating ⟨7, "p1", "n1", "p2", "n2"⟩⟩⟩,
        ⟨.inl ⟨"c", ⟨[(0, 100)], .Migrating ⟨7, "p1", "n1", "p2", "n2"⟩⟩,
          ⟨7, "p1", "n1", "p2", "n2"⟩, .PreCheck⟩⟩)])]⟩
      ⟨"v1", ⟨"c", ⟨[(0, 100)], .Migrating ⟨7, "p1", "n1", "p2", "n2"⟩⟩⟩⟩
      .PreSwitch = .error .PeerMigrating) ∧
    (manager.MigrationMap.handle_switch
      ⟨false, [("c", [(⟨"c", ⟨[(0, 100)], .Importing ⟨7, "p1", "n1", "p2", "n2"⟩⟩⟩,
        ⟨.inr ⟨⟨7, "p1", "n1", "p2", "n2"⟩,
          ⟨[(0, 100)], .Importing ⟨7, "p1", "n1", "p2", "n2"⟩⟩, .PreBlocking⟩⟩)])]⟩
      ⟨"v1", ⟨"c", ⟨[(0, 100)], .Importing ⟨7, "p1", "n1", "p2", "n2"⟩⟩⟩⟩
      .PreSwitch = .error .NotReady) ∧
    (manager.MigrationMap.mkEmpty.handle_switch
      ⟨"v1", ⟨"c", ⟨[(0, 100)], .none⟩⟩⟩ .PreSwitch = .error .TaskNotFound) := by
  refine ⟨?_, ?_, ?_⟩
  · exact (C2_handle_switch _ _ _).1
      ⟨"c", ⟨[(0, 100)], .Migrating ⟨7, "p1", "n1", "p2", "n2"⟩⟩,
        ⟨7, "p1", "n1", "p2", "n2"⟩, .PreCheck⟩ (by decide)
  · exact (C2_handle_switch _ _ _).2.1
      ⟨⟨7, "p1", "n1", "p2", "n2"⟩,
        ⟨[(0, 100)], .Importing ⟨7, "p1", "n1", "p2", "n2"⟩⟩, .PreBlocking⟩
      (by decide) (Or.inr rfl)
  · exact (C2_handle_switch _ _ _).2.2 (by decide)

/-- Witness for C4 at a concrete map and command task. -/
theorem C4_send_witness :
    (manager.MigrationMap.send manager.MigrationMap.mkEmpty ⟨"c", some 5, []⟩
      = (.error (.SlotNotFound ⟨⟨"c", some 5, [.SentToMigrationBackend]⟩,
          .NotBlocking⟩), [])) ∧
    (manager.MigrationMap.send ⟨false, [("c", [])]⟩ ⟨"c", Option.none, []⟩
      = (.error .MissingKey,
         [.setResp ⟨"c", Option.none, [.SentToMigrationBackend]⟩
            (proto.Resp.Error "missing key")])) := by
  refine ⟨?_, ?_⟩
  · exact (C4_send_fast_path_and_missing_key manager.MigrationMap.mkEmpty _).1 rfl
  · exact (C4_send_fast_path_and_missing_key _ _).2 [] rfl (by decide) rfl

/-- Witness for C10 at a concrete map whose only task containing the slot
is importing-role. -/
theorem C10_send_sync_task_witness :
    manager.MigrationMap.send_sync_task
      ⟨false, [("c", [(⟨"c", ⟨[(0, 100)], .Importing ⟨7, "p1", "n1", "p2", "n2"⟩⟩⟩,
        ⟨.inr ⟨⟨7, "p1", "n1", "p2", "n2"⟩,
          ⟨[(0, 100)], .Importing ⟨7, "p1", "n1", "p2", "n2"⟩⟩, .PreCheck⟩⟩)])]⟩
      ⟨"c", some 42, []⟩
      = (.error (.SlotNotFound ⟨⟨"c", some 42, [.SentToMigrationBackend]⟩,
          .NotBlocking⟩), []) := by
  refine C10_send_sync_task_ignores_importing _ _ 42 ?_ ?_
  · rfl
  intro tasks ht
  have hL : some [((⟨"c", ⟨[(0, 100)], .Importing ⟨7, "p1", "n1", "p2", "n2"⟩⟩⟩
      : proto.MigrationTaskMeta),
    (⟨.inr ⟨⟨7, "p1", "n1", "p2", "n2"⟩,
      ⟨[(0, 100)], .Importing ⟨7, "p1", "n1", "p2", "n2"⟩⟩, .PreCheck⟩⟩
      : manager.MgrTask))] = some tasks := ht
  injection hL with hL2
  subst hL2
  intro p hp mig hmig
  have hp2 := List.mem_singleton.mp hp
  rw [hp2] at hmig
  simp at hmig

/-- Witness for C9 at a concrete update: the created cluster entry is
non-empty, and an update from an empty cluster map has an all-`none`
lookup. -/
theorem C9_migration_map_invariant_witness :
    (("c", [((⟨"c", ⟨[(0, 100)], .Migrating ⟨7, "p1", "n1", "p2", "n2"⟩⟩⟩
        : proto.MigrationTaskMeta),
      (⟨.inl ⟨"c", ⟨[(0, 100)], .Migrating ⟨7, "p1", "n1", "p2", "n2"⟩⟩,
        ⟨7, "p1", "n1", "p2", "n2"⟩, .PreCheck⟩⟩ : manager.MgrTask))]).2 ≠ []) ∧
    manager.tmGet
      (manager.MigrationMap.mkEmpty.update_from_old_task_map []).1.task_map
      "c" ⟨"c", ⟨[(0, 100)], .none⟩⟩ = Option.none := by
  refine ⟨?_, ?_⟩
  · exact (C9_migration_map_invariant.2 manager.MigrationMap.mkEmpty
      [("c", [("n1", [⟨[(0, 100)], .Migrating ⟨7, "p1", "n1", "p2", "n2"⟩⟩])])]).2.1
      _ (by decide)
  · exact (C9_migration_map_invariant.2 manager.MigrationMap.mkEmpty []).2.2 rfl _ _

/-- Witness for C1 at a concrete old map and new cluster map: the running
task of the already-known meta is reused, the fresh `Migrating` and
`Importing` ranges get fresh tasks reported as `NewTask`s, and the old
task whose meta left the map is dropped. -/
theorem C1_update_from_old_task_map_witness :
    (manager.tmGet
      (manager.MigrationMap.update_from_old_task_map
        ⟨false, [("c",
          [(⟨"c", ⟨[(0, 100)], .Migrating ⟨7, "p1", "n1", "p2", "n2"⟩⟩⟩,
            ⟨.inl ⟨"c", ⟨[(0, 100)], .Migrating ⟨7, "p1", "n1", "p2", "n2"⟩⟩,
              ⟨7, "p1", "n1", "p2", "n2"⟩, .Blocking⟩⟩),
           (⟨"c", ⟨[(200, 300)], .Migrating ⟨8, "p1", "n1", "p2", "n2"⟩⟩⟩,
            ⟨.inl ⟨"c", ⟨[(200, 300)], .Migrating ⟨8, "p1", "n1", "p2", "n2"⟩⟩,
              ⟨8, "p1", "n1", "p2", "n2"⟩, .PreCheck⟩⟩)])]⟩
        [("c", [("n1", [⟨[(0, 100)], .Migrating ⟨7, "p1", "n1", "p2", "n2"⟩⟩,
                        ⟨[(400, 500)], .Migrating ⟨9, "p3", "n3", "p4", "n4"⟩⟩])]),
         ("d", [("n2",
           [⟨[(600, 700)], .Importing ⟨10, "p5", "n5", "p6", "n6"⟩⟩])])]).1.task_map
      "c" ⟨"c", ⟨[(0, 100)], .Migrating ⟨7, "p1", "n1", "p2", "n2"⟩⟩⟩
      = some ⟨.inl ⟨"c", ⟨[(0, 100)], .Migrating ⟨7, "p1", "n1", "p2", "n2"⟩⟩,
          ⟨7, "p1", "n1", "p2", "n2"⟩, .Blocking⟩⟩) ∧
    (manager.tmGet
      (manager.MigrationMap.update_from_old_task_map
        ⟨false, [("c",
          [(⟨"c", ⟨[(0, 100)], .Migrating ⟨7, "p1", "n1", "p2", "n2"⟩⟩⟩,
            ⟨.inl ⟨"c", ⟨[(0, 100)], .Migrating ⟨7, "p1", "n1", "p2", "n2"⟩⟩,
              ⟨7, "p1", "n1", "p2", "n2"⟩, .Blocking⟩⟩),
           (⟨"c", ⟨[(200, 300)], .Migrating ⟨8, "p1", "n1", "p2", "n2"⟩⟩⟩,
            ⟨.inl ⟨"c", ⟨[(200, 300)], .Migrating ⟨8, "p1", "n1", "p2", "n2"⟩⟩,
              ⟨8, "p1", "n1", "p2", "n2"⟩, .PreCheck⟩⟩)])]⟩
        [("c", [("n1", [⟨[(0, 100)], .Migrating ⟨7, "p1", "n1", "p2", "n2"⟩⟩,
                        ⟨[(400, 500)], .Migrating ⟨9, "p3", "n3", "p4", "n4"⟩⟩])]),
         ("d", [("n2",
           [⟨[(600, 700)], .Importing ⟨10, "p5", "n5", "p6", "n6"⟩⟩])])]).1.task_map
      "c" ⟨"c", ⟨[(400, 500)], .Migrating ⟨9, "p3", "n3", "p4", "n4"⟩⟩⟩
      = some ⟨.inl ⟨"c", ⟨[(400, 500)], .Migrating ⟨9, "p3", "n3", "p4", "n4"⟩⟩,
          ⟨9, "p3", "n3", "p4", "n4"⟩, .PreCheck⟩⟩ ∧
     (⟨"c", 9, [(400, 500)],
       .inl ⟨"c", ⟨[(400, 500)], .Migrating ⟨9, "p3", "n3", "p4", "n4"⟩⟩,
         ⟨9, "p3", "n3", "p4", "n4"⟩, .PreCheck⟩⟩ : manager.NewTask)
       ∈ (manager.MigrationMap.update_from_old_task_map
        ⟨false, [("c",
          [(⟨"c", ⟨[(0, 100)], .Migrating ⟨7, "p1", "n1", "p2", "n2"⟩⟩⟩,
            ⟨.inl ⟨"c", ⟨[(0, 100)], .Migrating ⟨7, "p1", "n1", "p2", "n2"⟩⟩,
              ⟨7, "p1", "n1", "p2", "n2"⟩, .Blocking⟩⟩),
           (⟨"c", ⟨[(200, 300)], .Migrating ⟨8, "p1", "n1", "p2", "n2"⟩⟩⟩,
            ⟨.inl ⟨"c", ⟨[(200, 300)], .Migrating ⟨8, "p1", "n1", "p2", "n2"⟩⟩,
              ⟨8, "p1", "n1", "p2", "n2"⟩, .PreCheck⟩⟩)])]⟩
        [("c", [("n1", [⟨[(0, 100)], .Migrating ⟨7, "p1", "n1", "p2", "n2"⟩⟩,
                        ⟨[(400, 500)], .Migrating ⟨9, "p3", "n3", "p4", "n4"⟩⟩])]),
         ("d", [("n2",
           [⟨[(600, 700)], .Importing ⟨10, "p5", "n5", "p6", "n6"⟩⟩])])]).2) ∧
    (manager.tmGet
      (manager.MigrationMap.update_from_old_task_map
        ⟨false, [("c",
          [(⟨"c", ⟨[(0, 100)], .Migrating ⟨7, "p1", "n1", "p2", "n2"⟩⟩⟩,
            ⟨.inl ⟨"c", ⟨[(0, 100)], .Migrating ⟨7, "p1", "n1", "p2", "n2"⟩⟩,
              ⟨7, "p1", "n1", "p2", "n2"⟩, .Blocking⟩⟩),
           (⟨"c", ⟨[(200, 300)], .Migrating ⟨8, "p1", "n1", "p2", "n2"⟩⟩⟩,
            ⟨.inl ⟨"c", ⟨[(200, 300)], .Migrating ⟨8, "p1", "n1", "p2", "n2"⟩⟩,
              ⟨8, "p1", "n1", "p2", "n2"⟩, .PreCheck⟩⟩)])]⟩
        [("c", [("n1", [⟨[(0, 100)], .Migrating ⟨7, "p1", "n1", "p2", "n2"⟩⟩,
                        ⟨[(400, 500)], .Migrating ⟨9, "p3", "n3", "p4", "n4"⟩⟩])]),
         ("d", [("n2",
           [⟨[(600, 700)], .Importing ⟨10, "p5", "n5", "p6", "n6"⟩⟩])])]).1.task_map
      "d" ⟨"d", ⟨[(600, 700)], .Importing ⟨10, "p5", "n5", "p6", "n6"⟩⟩⟩
      = some ⟨.inr ⟨⟨10, "p5", "n5", "p6", "n6"⟩,
          ⟨[(600, 700)], .Importing ⟨10, "p5", "n5", "p6", "n6"⟩⟩, .PreCheck⟩⟩) ∧
    (manager.tmGet
      (manager.MigrationMap.update_from_old_task_map
        ⟨false, [("c",
          [(⟨"c", ⟨[(0, 100)], .Migrating ⟨7, "p1", "n1", "p2", "n2"⟩⟩⟩,
            ⟨.inl ⟨"c", ⟨[(0, 100)], .Migrating ⟨7, "p1", "n1", "p2", "n2"⟩⟩,
              ⟨7, "p1", "n1", "p2", "n2"⟩, .Blocking⟩⟩),
           (⟨"c", ⟨[(200, 300)], .Migrating ⟨8, "p1", "n1", "p2", "n2"⟩⟩⟩,
            ⟨.inl ⟨"c", ⟨[(200, 300)], .Migrating ⟨8, "p1", "n1", "p2", "n2"⟩⟩,
              ⟨8, "p1", "n1", "p2", "n2"⟩, .PreCheck⟩⟩)])]⟩
        [("c", [("n1", [⟨[(0, 100)], .Migrating ⟨7, "p1", "n1", "p2", "n2"⟩⟩,
                        ⟨[(400, 500)], .Migrating ⟨9, "p3", "n3", "p4", "n4"⟩⟩])]),
         ("d", [("n2",
           [⟨[(600, 700)], .Importing ⟨10, "p5", "n5", "p6", "n6"⟩⟩])])]).1.task_map
      "c" ⟨"c", ⟨[(200, 300)], .Migrating ⟨8, "p1", "n1", "p2", "n2"⟩⟩⟩
      = Option.none) := by
  refine ⟨?_, ?_, ?_, ?_⟩
  · exact ((C1_update_from_old_task_map _ _).1 "c"
      ⟨[(0, 100)], .Migrating ⟨7, "p1", "n1", "p2", "n2"⟩⟩
      ⟨.inl ⟨"c", ⟨[(0, 100)], .Migrating ⟨7, "p1", "n1", "p2", "n2"⟩⟩,
        ⟨7, "p1", "n1", "p2", "n2"⟩, .Blocking⟩⟩
      (by decide) (by decide) (by decide)).1
  · exact (C1_update_from_old_task_map _ _).2.1 "c"
      ⟨[(400, 500)], .Migrating ⟨9, "p3", "n3", "p4", "n4"⟩⟩
      ⟨9, "p3", "n3", "p4", "n4"⟩ (by decide) rfl (by decide)
  · exact ((C1_update_from_old_task_map _ _).2.2.1 "d"
      ⟨[(600, 700)], .Importing ⟨10, "p5", "n5", "p6", "n6"⟩⟩
      ⟨10, "p5", "n5", "p6", "n6"⟩ (by decide) rfl (by decide)).1
  · refine (C1_update_from_old_task_map _ _).2.2.2 "c"
      ⟨"c", ⟨[(200, 300)], .Migrating ⟨8, "p1", "n1", "p2", "n2"⟩⟩⟩ ?_
    intro sr hsr
    have hsr2 : ("c", sr) ∈
        [(("c" : proto.ClusterName),
          (⟨[(0, 100)], .Migrating ⟨7, "p1", "n1", "p2", "n2"⟩⟩ : proto.SlotRange)),
         ("c", ⟨[(400, 500)], .Migrating ⟨9, "p3", "n3", "p4", "n4"⟩⟩),
         ("d", ⟨[(600, 700)], .Importing ⟨10, "p5", "n5", "p6", "n6"⟩⟩)] := hsr
    simp only [List.mem_cons, List.not_mem_nil, or_false] at hsr2
    rcases hsr2 with h | h | h
    · injection h with h1 h2
      subst h2
      decide
    · injection h with h1 h2
      subst h2
      decide
    · injection h with h1 h2
      exact absurd h1 (by decide)
